import Mathlib

/-!
Shallow embedding of the Glupper trust-graph core
(src/services/account_service.py): accounts, invite codes, the
registration / revouch / conviction / inactivity-sweep operations, and
the recursive sponsorship-tree queries, together with theorems checking
the specification's claims about them.

Timestamps are modelled as natural numbers counting hours, so the
configured RECOVERY_COOLDOWN_HOURS constant is added directly, one day
is 24 units (timedelta(days=d) becomes d * 24) and delta.days becomes
division by 24 (with truncated natural subtraction playing the role of
the max(delta.days, 0) clamp).
-/

namespace Glupper

/-- Status column values of the accounts table, as written by the
service SQL ('active', 'revouch_required', 'banned'). -/
inductive AccountStatus where
  | active
  | revouch_required
  | banned
deriving DecidableEq, Repr

/-- Auth provider discriminant (email/password accounts vs Google OAuth
accounts). -/
inductive AuthProvider where
  | email
  | google
deriving DecidableEq, Repr

/-- One row of the accounts table, with the fields read by
account_service's _account_from_record. -/
structure Account where
  id : Nat
  username : String
  email : String
  password_hash : Option String
  auth_provider : AuthProvider
  auth_provider_subject : Option String
  sponsor_id : Option Nat
  status : AccountStatus
  demerit_count : Nat
  trust_started_at : Option Nat
  recovery_eligible_at : Option Nat
  last_active_at : Nat
  created_at : Nat
  updated_at : Nat
deriving DecidableEq, Repr

/-- One row of the invite_codes table, with the fields read by
_invite_from_record. -/
structure InviteCode where
  code : String
  sponsor_id : Nat
  max_uses : Nat
  uses : Nat
  expires_at : Option Nat
  is_active : Bool
  created_at : Nat
deriving DecidableEq, Repr

/-- One row of the append-only account_events log (payload omitted:
the service writes it but never reads it back). -/
structure AccountEvent where
  account_id : Nat
  event_type : String
deriving DecidableEq, Repr

/-- The trust ledger: accounts, invite codes and the event log. -/
structure State where
  accounts : List Account
  invites : List InviteCode
  events : List AccountEvent
deriving DecidableEq, Repr

/-- The typed service errors raised by account_service, plus a
uniqueViolation constructor for the store's unique-constraint failures
(the spec's infrastructure-failure category). -/
inductive ServiceErr where
  | duplicateAccount (msg : String)
  | invalidInviteCode (msg : String)
  | invalidCredentials (msg : String)
  | accountNotFound (msg : String)
  | invalidAccountState (msg : String)
  | serviceFailure (msg : String)
  | uniqueViolation (msg : String)
deriving DecidableEq, Repr

/-- Configured recovery cooldown (config_secrets.RECOVERY_COOLDOWN_HOURS). -/
def RECOVERY_COOLDOWN_HOURS : Nat := 72

/-- Configured minimum sponsor trust age in days
(config_secrets.RECOVERY_SPONSOR_MIN_TRUST_DAYS). -/
def RECOVERY_SPONSOR_MIN_TRUST_DAYS : Nat := 30

/-- Configured maximum sponsor demerits
(config_secrets.RECOVERY_SPONSOR_MAX_DEMERITS). -/
def RECOVERY_SPONSOR_MAX_DEMERITS : Nat := 0

/-- SELECT * FROM accounts WHERE id = x (fetchrow: first matching row). -/
def findAccount (accounts : List Account) (accountId : Nat) : Option Account :=
  accounts.find? (fun a => decide (a.id = accountId))

/-- INSERT INTO account_events (_insert_event). -/
def appendEvent (s : State) (accountId : Nat) (eventType : String) : State :=
  { s with events := s.events ++ [{ account_id := accountId, event_type := eventType }] }

/-- Whitespace stripping of str.strip(), written over the character
list so that it evaluates inside the logic (String.trim itself is not
kernel-reducible). -/
def stripStr (s : String) : String :=
  String.mk
    (((s.data.dropWhile Char.isWhitespace).reverse.dropWhile Char.isWhitespace).reverse)

/-- Expiry test of _consume_invite_code:
invite.expires_at is not None and invite.expires_at < now. -/
def inviteExpired (invite : InviteCode) (now : Nat) : Bool :=
  match invite.expires_at with
  | some e => decide (e < now)
  | none => false

/-- Row update of _consume_invite_code's UPDATE statement: bump uses by
one and flip is_active once uses + 1 reaches max_uses, on the rows
matching the consumed code. -/
def consumeInviteRow (normalized : String) (i : InviteCode) : InviteCode :=
  if i.code = normalized then
    { i with uses := i.uses + 1,
             is_active := if i.max_uses ≤ i.uses + 1 then false else i.is_active }
  else i

/-- Embedding of _consume_invite_code: validates the first row matching
the (stripped) code, then runs the UPDATE.  Returns the invite's sponsor
id and the updated invite table. -/
def consumeInviteCode (invites : List InviteCode) (inviteCode : String) (now : Nat) :
    Except ServiceErr (Nat × List InviteCode) :=
  let normalized := stripStr inviteCode
  match invites.find? (fun i => decide (i.code = normalized)) with
  | none => .error (.invalidInviteCode "Invite code does not exist")
  | some invite =>
    if invite.is_active = false then
      .error (.invalidInviteCode "Invite code is inactive")
    else if inviteExpired invite now then
      .error (.invalidInviteCode "Invite code has expired")
    else if invite.max_uses ≤ invite.uses then
      .error (.invalidInviteCode "Invite code is fully used")
    else
      .ok (invite.sponsor_id, invites.map (consumeInviteRow normalized))

/-- Embedding of _ensure_active_sponsor. -/
def ensureActiveSponsor (accounts : List Account) (sponsorId : Nat) :
    Except ServiceErr Account :=
  match findAccount accounts sponsorId with
  | none => .error (.invalidInviteCode "Invite sponsor account not found")
  | some sponsor =>
    if sponsor.status = .active then .ok sponsor
    else .error (.invalidInviteCode "Sponsor is not active")

/-- Embedding of _ensure_unique_account. -/
def ensureUniqueAccount (accounts : List Account) (username email : String)
    (googleSubject : Option String) : Except ServiceErr Unit :=
  if accounts.any (fun a => decide (a.username = username ∨ a.email = email)) then
    .error (.duplicateAccount "Username or email already exists")
  else
    match googleSubject with
    | none => .ok ()
    | some sub =>
      if accounts.any (fun a =>
          decide (a.auth_provider = .google ∧ a.auth_provider_subject = some sub)) then
        .error (.duplicateAccount "Google account already exists")
      else .ok ()

/-- Embedding of account_trust_days: whole days since trust_started_at,
clamped at zero (natural subtraction), 0 when trust never started. -/
def account_trust_days (account : Account) (now : Nat) : Nat :=
  match account.trust_started_at with
  | none => 0
  | some ts => (now - ts) / 24

/-- Cooldown test of _validate_recovery_sponsor:
recovery_eligible_at is not None and now < recovery_eligible_at. -/
def cooldownPending (account : Account) (now : Nat) : Bool :=
  match account.recovery_eligible_at with
  | some t => decide (now < t)
  | none => false

/-- Embedding of _validate_recovery_sponsor. -/
def validateRecoverySponsor (account sponsor : Account) (now : Nat) :
    Except ServiceErr Unit :=
  if account.sponsor_id = some sponsor.id then
    .error (.invalidAccountState "Recovery requires a different sponsor")
  else if cooldownPending account now then
    .error (.invalidAccountState "Recovery cooldown has not elapsed")
  else if account_trust_days sponsor now < RECOVERY_SPONSOR_MIN_TRUST_DAYS then
    .error (.invalidAccountState "Sponsor trust age is too low for recovery")
  else if RECOVERY_SPONSOR_MAX_DEMERITS < sponsor.demerit_count then
    .error (.invalidAccountState "Sponsor has too many demerits for recovery")
  else .ok ()

/-- Embedding of _insert_account.  The INSERT omits recovery_eligible_at
so the new row has it NULL; status is 'active', trust_started_at and the
activity timestamps are NOW().  The leading guard is modelled from the
spec: the accounts table's unique id key (its DDL is not in the
repository snapshot); a uuid4 collision surfaces as a store
unique-constraint violation that aborts the transaction. -/
def insertAccount (s : State) (newId : Nat) (username email : String)
    (passwordHash : Option String) (provider : AuthProvider) (subject : Option String)
    (sponsorId : Option Nat) (now : Nat) : Except ServiceErr (Account × State) :=
  if s.accounts.any (fun a => decide (a.id = newId)) then
    .error (.uniqueViolation "accounts primary key")
  else
    let account : Account :=
      { id := newId, username := username, email := email,
        password_hash := passwordHash, auth_provider := provider,
        auth_provider_subject := subject, sponsor_id := sponsorId, status := .active,
        demerit_count := 0, trust_started_at := some now, recovery_eligible_at := none,
        last_active_at := now, created_at := now, updated_at := now }
    .ok (account, { s with accounts := s.accounts ++ [account] })

/-- Embedding of create_bootstrap_account (password hashing is an
external primitive, so the hash is taken as an argument).  Raising
propagates the error and discards the transaction's intermediate
states, which is the rollback of connection.transaction(). -/
def create_bootstrap_account (s : State) (username email passwordHash : String)
    (newId now : Nat) : Except ServiceErr (Account × State) :=
  match ensureUniqueAccount s.accounts username email none with
  | .error e => .error e
  | .ok _ =>
    match insertAccount s newId username email (some passwordHash) .email none none now with
    | .error e => .error e
    | .ok (account, s1) => .ok (account, appendEvent s1 account.id "bootstrap_account")

/-- Embedding of register_password_account.  The matches thread the
transaction's intermediate states; an error discards them, which is
the rollback of the enclosing connection.transaction(). -/
def register_password_account (s : State) (username email passwordHash inviteCode : String)
    (newId now : Nat) : Except ServiceErr (Account × State) :=
  match consumeInviteCode s.invites inviteCode now with
  | .error e => .error e
  | .ok (sponsorId, invites1) =>
    match ensureActiveSponsor s.accounts sponsorId with
    | .error e => .error e
    | .ok _ =>
      match ensureUniqueAccount s.accounts username email none with
      | .error e => .error e
      | .ok _ =>
        match insertAccount { s with invites := invites1 } newId username email
            (some passwordHash) .email none (some sponsorId) now with
        | .error e => .error e
        | .ok (account, s2) =>
          .ok (account, appendEvent s2 account.id "registered_with_password")

/-- Embedding of register_google_account. -/
def register_google_account (s : State) (username email googleSubject inviteCode : String)
    (newId now : Nat) : Except ServiceErr (Account × State) :=
  match consumeInviteCode s.invites inviteCode now with
  | .error e => .error e
  | .ok (sponsorId, invites1) =>
    match ensureActiveSponsor s.accounts sponsorId with
    | .error e => .error e
    | .ok _ =>
      match ensureUniqueAccount s.accounts username email (some googleSubject) with
      | .error e => .error e
      | .ok _ =>
        match insertAccount { s with invites := invites1 } newId username email
            none .google (some googleSubject) (some sponsorId) now with
        | .error e => .error e
        | .ok (account, s2) =>
          .ok (account, appendEvent s2 account.id "registered_with_google")

/-- Embedding of touch_last_active: unconditional UPDATE of
last_active_at and updated_at on the rows matching the id. -/
def touch_last_active (s : State) (accountId now : Nat) : State :=
  { s with accounts := s.accounts.map (fun a =>
      if a.id = accountId then { a with last_active_at := now, updated_at := now }
      else a) }

/-- Embedding of create_invite (the random code is taken as an
argument; the code-collision guard is modelled from the spec: the
invite_codes table's unique code key, whose DDL is not in the
repository snapshot). -/
def create_invite (s : State) (accountId maxUses : Nat) (expiresInDays : Option Nat)
    (newCode : String) (now : Nat) : Except ServiceErr (InviteCode × State) :=
  match findAccount s.accounts accountId with
  | none => .error (.accountNotFound "Account not found")
  | some account =>
    if account.status ≠ .active then
      .error (.invalidAccountState "Only active accounts can generate invites")
    else if s.invites.any (fun i => decide (i.code = newCode)) then
      .error (.uniqueViolation "invite_codes primary key")
    else
      let expiresAt := expiresInDays.map (fun d => now + d * 24)
      let invite : InviteCode :=
        { code := newCode, sponsor_id := accountId,
          max_uses := maxUses, uses := 0, expires_at := expiresAt, is_active := true,
          created_at := now }
      .ok (invite,
        appendEvent { s with invites := s.invites ++ [invite] } accountId "invite_created")

/-- Embedding of revouch_account. -/
def revouch_account (s : State) (accountId : Nat) (inviteCode : String) (now : Nat) :
    Except ServiceErr (Account × State) :=
  match findAccount s.accounts accountId with
  | none => .error (.accountNotFound "Account not found")
  | some account =>
    if account.status = .banned then
      .error (.invalidAccountState "Banned accounts cannot revouch")
    else if account.status ≠ .revouch_required then
      .error (.invalidAccountState "Revouch is only available for accounts that require revouch")
    else
      match consumeInviteCode s.invites inviteCode now with
      | .error e => .error e
      | .ok (sponsorId, invites1) =>
        if sponsorId = accountId then
          .error (.invalidAccountState "Self-vouch is not allowed")
        else
          match ensureActiveSponsor s.accounts sponsorId with
          | .error e => .error e
          | .ok sponsor =>
            match validateRecoverySponsor account sponsor now with
            | .error e => .error e
            | .ok _ =>
              let accounts1 := s.accounts.map (fun a =>
                if a.id = accountId then
                  { a with sponsor_id := some sponsorId, status := .active,
                           trust_started_at := some now, recovery_eligible_at := none,
                           updated_at := now }
                else a)
              match findAccount accounts1 accountId with
              | none => .error (.serviceFailure "Failed to revouch account")
              | some updatedRow =>
                .ok (updatedRow,
                  appendEvent { s with accounts := accounts1, invites := invites1 }
                    accountId "revouched")

/-- Child rows of a frontier of ids: one recursion step of the
WITH RECURSIVE referral_tree / affected CTEs
(child.sponsor_id joined against the current frontier). -/
def childIdsOf (accounts : List Account) (frontier : List Nat) : List Nat :=
  (accounts.filter (fun a =>
    match a.sponsor_id with
    | some p => frontier.contains p
    | none => false)).map (fun a => a.id)

/-- Iterated CTE levels: the concatenation of fuel successive frontiers. -/
def treeLevels (accounts : List Account) : List Nat → Nat → List Nat
  | _, 0 => []
  | frontier, fuel + 1 => frontier ++ treeLevels accounts (childIdsOf accounts frontier) fuel

/-- The conviction CTE referral_tree: base level is the rows whose id is
the convicted id, then repeatedly the children.  accounts.length + 1
levels are enough to exhaust the recursion on any forest (proved below). -/
def referralTree (accounts : List Account) (rootId : Nat) : List Nat :=
  treeLevels accounts
    ((accounts.filter (fun a => decide (a.id = rootId))).map (fun a => a.id))
    (accounts.length + 1)

/-- Row update of the first UPDATE of convict_and_ban_tree (ban the
convicted root, clearing both trust timestamps). -/
def banRootRow (rootId now : Nat) (a : Account) : Account :=
  if a.id = rootId then
    { a with status := .banned, trust_started_at := none,
             recovery_eligible_at := none, updated_at := now }
  else a

/-- Row update of the downstream UPDATE of convict_and_ban_tree (mark
revouch_required with cooldown, skipping rows already banned). -/
def downstreamRow (downstreamIds : List Nat) (recoveryEligibleAt now : Nat)
    (a : Account) : Account :=
  if a.id ∈ downstreamIds ∧ a.status ≠ .banned then
    { a with status := .revouch_required, trust_started_at := none,
             recovery_eligible_at := some recoveryEligibleAt, updated_at := now }
  else a

/-- Row update of the demerit UPDATE of convict_and_ban_tree. -/
def demeritRow (sponsorId now : Nat) (a : Account) : Account :=
  if a.id = sponsorId then
    { a with demerit_count := a.demerit_count + 1, updated_at := now }
  else a

/-- Invite update of the bulk deactivation UPDATE of convict_and_ban_tree. -/
def deactivateInviteRow (subtreeIds : List Nat) (i : InviteCode) : InviteCode :=
  if i.sponsor_id ∈ subtreeIds then { i with is_active := false } else i

/-- Embedding of convict_and_ban_tree.  Statement order follows the
source: recursive subtree query, ban the root, downstream update (only
issued when downstream_ids is non-empty), bulk invite deactivation,
sponsor demerit (with its event), then the ban and downstream events. -/
def convict_and_ban_tree (s : State) (accountId : Nat) (reason : String) (now : Nat) :
    Except ServiceErr ((Nat × List Nat × Option Nat) × State) :=
  match findAccount s.accounts accountId with
  | none => .error (.accountNotFound "Account not found")
  | some convictedAccount =>
    let subtreeIds := referralTree s.accounts accountId
    let downstreamIds := subtreeIds.filter (fun x => decide (x ≠ accountId))
    let recoveryEligibleAt := now + RECOVERY_COOLDOWN_HOURS
    let accounts1 := s.accounts.map (banRootRow accountId now)
    let accounts2 :=
      if downstreamIds.isEmpty then accounts1
      else accounts1.map (downstreamRow downstreamIds recoveryEligibleAt now)
    let invites1 := s.invites.map (deactivateInviteRow subtreeIds)
    let accounts3 :=
      match convictedAccount.sponsor_id with
      | some p => accounts2.map (demeritRow p now)
      | none => accounts2
    let demeritEvents : List AccountEvent :=
      match convictedAccount.sponsor_id with
      | some p => [{ account_id := p, event_type := "demerit_assessed" }]
      | none => []
    let events1 := s.events ++ demeritEvents
        ++ [{ account_id := accountId, event_type := "account_banned" }]
        ++ downstreamIds.map (fun d =>
            { account_id := d, event_type := "revouch_required_due_to_upstream_ban" })
    .ok ((accountId, downstreamIds, convictedAccount.sponsor_id),
         { accounts := accounts3, invites := invites1, events := events1 })

/-- Inactive roots of the sweep CTE: active rows with
last_active_at < cutoff. -/
def inactiveRootIds (accounts : List Account) (cutoff : Nat) : List Nat :=
  (accounts.filter (fun a =>
    decide (a.status = .active ∧ a.last_active_at < cutoff))).map (fun a => a.id)

/-- The sweep CTE affected: children of the inactive roots, then
recursively their children (the roots themselves are not in the base). -/
def affectedIds (accounts : List Account) (rootIds : List Nat) : List Nat :=
  treeLevels accounts (childIdsOf accounts rootIds) (accounts.length + 1)

/-- Row update applied by the sweep's UPDATE to affected rows that are
currently active. -/
def sweepRow (affected : List Nat) (now : Nat) (a : Account) : Account :=
  if a.id ∈ affected ∧ a.status = .active then
    { a with status := .revouch_required, trust_started_at := none,
             recovery_eligible_at := none, updated_at := now }
  else a

/-- Embedding of expire_inactive_sponsor_trees. -/
def expire_inactive_sponsor_trees (s : State) (inactivityDays : Nat) (now : Nat) :
    List Nat × State :=
  let cutoff := now - inactivityDays * 24
  let roots := inactiveRootIds s.accounts cutoff
  let affected := affectedIds s.accounts roots
  let markedIds :=
    (s.accounts.filter (fun a =>
      decide (a.id ∈ affected ∧ a.status = .active))).map (fun a => a.id)
  let accounts1 := s.accounts.map (sweepRow affected now)
  let events1 := s.events ++ markedIds.map (fun x =>
    ({ account_id := x, event_type := "revouch_required_due_to_inactive_sponsor" } : AccountEvent))
  (markedIds, { s with accounts := accounts1, events := events1 })

/-- One service call, carrying the clock value and the random
identifiers (uuid4 / token_urlsafe) as explicit oracle arguments. -/
inductive Op where
  | createBootstrap (username email passwordHash : String) (newId now : Nat)
  | registerPassword (username email passwordHash inviteCode : String) (newId now : Nat)
  | registerGoogle (username email googleSubject inviteCode : String) (newId now : Nat)
  | createInvite (accountId maxUses : Nat) (expiresInDays : Option Nat)
      (newCode : String) (now : Nat)
  | revouch (accountId : Nat) (inviteCode : String) (now : Nat)
  | convict (accountId : Nat) (reason : String) (now : Nat)
  | sweep (inactivityDays now : Nat)
  | touch (accountId now : Nat)

/-- Commit an operation's result state, or keep the pre-state when the
transaction rolled back with an error. -/
def commit {α : Type} (s : State) : Except ServiceErr (α × State) → State
  | .ok (_, s1) => s1
  | .error _ => s

/-- Run one operation against the ledger. -/
def applyOp (s : State) : Op → State
  | .createBootstrap u e p nid t => commit s (create_bootstrap_account s u e p nid t)
  | .registerPassword u e p c nid t => commit s (register_password_account s u e p c nid t)
  | .registerGoogle u e sub c nid t => commit s (register_google_account s u e sub c nid t)
  | .createInvite aid m d c t => commit s (create_invite s aid m d c t)
  | .revouch aid c t => commit s (revouch_account s aid c t)
  | .convict aid r t => commit s (convict_and_ban_tree s aid r t)
  | .sweep d t => (expire_inactive_sponsor_trees s d t).2
  | .touch aid t => touch_last_active s aid t

/-- Run a sequence of operations. -/
def applyOps (s : State) (ops : List Op) : State :=
  ops.foldl applyOp s

/-- The empty ledger. -/
def initState : State := { accounts := [], invites := [], events := [] }

/-- Concrete account-row builder for the concrete instances below (the
credential fields are fixed; they play no role in the graph operations
exercised on these rows). -/
def testAccount (i : Nat) (sp : Option Nat) (st : AccountStatus) (dm : Nat)
    (tr rc : Option Nat) (la up : Nat) : Account :=
  { id := i, username := "", email := "", password_hash := none,
    auth_provider := .email, auth_provider_subject := none, sponsor_id := sp,
    status := st, demerit_count := dm, trust_started_at := tr,
    recovery_eligible_at := rc, last_active_at := la, created_at := 0, updated_at := up }

/-- A concrete one-account state holding a clean banned row, used to
instantiate invariant theorems. -/
def bannedOneState : State :=
  { accounts := [testAccount 1 none .banned 0 none none 0 0], invites := [], events := [] }

/-- Row form of the spec's banned-cleanliness invariant: a banned
account has neither trust timestamp set. -/
def bannedCleanRow (a : Account) : Prop :=
  a.status = .banned → a.trust_started_at = none ∧ a.recovery_eligible_at = none

/-- State form of the banned-cleanliness invariant. -/
def bannedClean (s : State) : Prop :=
  ∀ a ∈ s.accounts, bannedCleanRow a

/-- Invariant of claim C3: an invite whose capacity is exhausted is
never active. -/
def exhaustedInactive (s : State) : Prop :=
  ∀ i ∈ s.invites, i.max_uses ≤ i.uses → i.is_active = false

/-- Invariant of claim C6: uses never exceeds max_uses, together with
the invite-code uniqueness the store key enforces. -/
def inviteCap (s : State) : Prop :=
  (s.invites.map (fun i => i.code)).Nodup ∧ ∀ i ∈ s.invites, i.uses ≤ i.max_uses

/-- The data-model constraint max_uses ≥ 1 on invite creation (the
request schema enforcing it is outside the repository snapshot). -/
def opMaxUsesPos : Op → Prop
  | .createInvite _ m _ _ _ => 1 ≤ m
  | _ => True

/-! ### Sponsor-chain characterization of the recursive CTE queries

The CTEs compute downward closures level by level.  The spec speaks of
"transitive invitees" / "descendants", which is the upward sponsor
chain; the lemmas below connect the two. -/

/-- Some row of the accounts table has this id. -/
def rowExists (accounts : List Account) (x : Nat) : Prop :=
  ∃ a ∈ accounts, a.id = x

instance (accounts : List Account) (x : Nat) : Decidable (rowExists accounts x) := by
  unfold rowExists
  infer_instance


/-- Follow sponsor_id upward n steps from x, looking each id up in the
accounts table. -/
def chainUp (accounts : List Account) : Nat → Nat → Option Nat
  | x, 0 => some x
  | x, n + 1 =>
    (findAccount accounts x).bind (fun a =>
      a.sponsor_id.bind (fun p => chainUp accounts p n))

/-- Iterated frontier of the CTE recursion. -/
def iterFrontier (accounts : List Account) (F : List Nat) : Nat → List Nat
  | 0 => F
  | k + 1 => childIdsOf accounts (iterFrontier accounts F k)

theorem iterFrontier_child (accounts : List Account) (F : List Nat) :
    ∀ k, iterFrontier accounts (childIdsOf accounts F) k = iterFrontier accounts F (k + 1) := by
  intro k
  induction k with
  | zero => rfl
  | succ k ih => simp [iterFrontier, ih]

theorem mem_treeLevels (accounts : List Account) :
    ∀ (fuel : Nat) (F : List Nat) (x : Nat),
      x ∈ treeLevels accounts F fuel ↔ ∃ k, k < fuel ∧ x ∈ iterFrontier accounts F k := by
  intro fuel
  induction fuel with
  | zero => simp [treeLevels]
  | succ fuel ih =>
    intro F x
    rw [treeLevels, List.mem_append, ih]
    constructor
    · rintro (hF | ⟨k, hk, hmem⟩)
      · exact ⟨0, Nat.succ_pos _, hF⟩
      · exact ⟨k + 1, Nat.succ_lt_succ hk, by rwa [iterFrontier_child] at hmem⟩
    · rintro ⟨k, hk, hmem⟩
      cases k with
      | zero => exact Or.inl hmem
      | succ k =>
        refine Or.inr ⟨k, Nat.lt_of_succ_lt_succ hk, ?_⟩
        rwa [iterFrontier_child]

theorem chainUp_add (accounts : List Account) :
    ∀ (m n x : Nat), chainUp accounts x (m + n) =
      (chainUp accounts x m).bind (fun y => chainUp accounts y n) := by
  intro m
  induction m with
  | zero => intro n x; simp [chainUp, Nat.zero_add]
  | succ m ih =>
    intro n x
    have hsum : m + 1 + n = (m + n) + 1 := by omega
    rw [hsum, chainUp, chainUp]
    cases hf : findAccount accounts x with
    | none => simp
    | some a =>
      cases hsp : a.sponsor_id with
      | none => simp [hsp]
      | some p => simp [hsp, ih n p]

/-- Membership in the filter-based child frontier, unfolded. -/
theorem mem_childIdsOf (accounts : List Account) (F : List Nat) (x : Nat) :
    x ∈ childIdsOf accounts F ↔
      ∃ a ∈ accounts, a.id = x ∧ ∃ p ∈ F, a.sponsor_id = some p := by
  simp only [childIdsOf, List.mem_map, List.mem_filter]
  constructor
  · rintro ⟨a, ⟨ha, hpred⟩, hid⟩
    refine ⟨a, ha, hid, ?_⟩
    cases hsp : a.sponsor_id with
    | none => rw [hsp] at hpred; simp at hpred
    | some p =>
      rw [hsp] at hpred
      exact ⟨p, by simpa using hpred, rfl⟩
  · rintro ⟨a, ha, hid, p, hp, hsp⟩
    exact ⟨a, ⟨ha, by rw [hsp]; simpa using hp⟩, hid⟩

/-- With unique ids, the row found for a member's id is that member. -/
theorem findAccount_of_mem_nodup (accounts : List Account)
    (hN : (accounts.map (fun a => a.id)).Nodup) (a : Account) (ha : a ∈ accounts) :
    findAccount accounts a.id = some a := by
  induction accounts with
  | nil => cases ha
  | cons b tl ih =>
    rw [List.map_cons, List.nodup_cons] at hN
    rcases List.mem_cons.mp ha with rfl | hmem
    · simp [findAccount, List.find?]
    · by_cases hid : b.id = a.id
      · exact absurd (hid ▸ List.mem_map_of_mem (fun a => a.id) hmem) hN.1
      · have : findAccount tl a.id = some a := ih hN.2 hmem
        simpa [findAccount, List.find?, hid] using this

theorem findAccount_mem (accounts : List Account) (x : Nat) (a : Account)
    (h : findAccount accounts x = some a) : a ∈ accounts ∧ a.id = x := by
  refine ⟨List.mem_of_find?_eq_some h, ?_⟩
  have := List.find?_some h
  simpa using this

theorem chain_of_mem_iterFrontier (accounts : List Account) (F : List Nat)
    (hN : (accounts.map (fun a => a.id)).Nodup) :
    ∀ (k : Nat) (x : Nat), x ∈ iterFrontier accounts F k →
      (∃ b ∈ F, chainUp accounts x k = some b) ∧ (1 ≤ k → rowExists accounts x) := by
  intro k
  induction k with
  | zero =>
    intro x hx
    exact ⟨⟨x, hx, rfl⟩, by omega⟩
  | succ k ih =>
    intro x hx
    rw [iterFrontier] at hx
    rcases (mem_childIdsOf accounts _ x).mp hx with ⟨a, ha, hid, p, hp, hsp⟩
    rcases (ih p hp).1 with ⟨b, hbF, hchain⟩
    have hfind : findAccount accounts x = some a := by
      rw [← hid]; exact findAccount_of_mem_nodup accounts hN a ha
    refine ⟨⟨b, hbF, ?_⟩, fun _ => ⟨a, ha, hid⟩⟩
    rw [chainUp, hfind]
    simp only [Option.some_bind]
    rw [hsp]
    simp only [Option.some_bind]
    exact hchain

theorem mem_iterFrontier_of_chain (accounts : List Account) (F : List Nat) :
    ∀ (k : Nat) (x b : Nat), chainUp accounts x k = some b → b ∈ F →
      x ∈ iterFrontier accounts F k := by
  intro k
  induction k with
  | zero =>
    intro x b hchain hbF
    rw [chainUp] at hchain
    cases hchain
    exact hbF
  | succ k ih =>
    intro x b hchain hbF
    rw [chainUp] at hchain
    cases hf : findAccount accounts x with
    | none => rw [hf] at hchain; simp at hchain
    | some a =>
      rw [hf] at hchain
      simp only [Option.some_bind] at hchain
      cases hsp : a.sponsor_id with
      | none => rw [hsp] at hchain; simp at hchain
      | some p =>
        rw [hsp] at hchain
        simp only [Option.some_bind] at hchain
        have hpmem : p ∈ iterFrontier accounts F k := ih p b hchain hbF
        rw [iterFrontier]
        rcases findAccount_mem accounts x a hf with ⟨ha, hid⟩
        exact (mem_childIdsOf accounts _ x).mpr ⟨a, ha, hid, p, hpmem, hsp⟩

theorem chainUp_isSome_of_le (accounts : List Account) (x b m k : Nat)
    (hmk : m ≤ k) (h : chainUp accounts x k = some b) :
    ∃ y, chainUp accounts x m = some y := by
  have hsplit := chainUp_add accounts m (k - m) x
  rw [Nat.add_sub_cancel' hmk] at hsplit
  rw [hsplit] at h
  cases hy : chainUp accounts x m with
  | none => rw [hy] at h; simp at h
  | some y => exact ⟨y, rfl⟩

theorem chainUp_row_exists (accounts : List Account) (x b k : Nat)
    (h : chainUp accounts x k = some b) :
    ∀ i, i < k → ∃ y, chainUp accounts x i = some y ∧ rowExists accounts y := by
  intro i hik
  rcases chainUp_isSome_of_le accounts x b i k (Nat.le_of_lt hik) h with ⟨y, hy⟩
  refine ⟨y, hy, ?_⟩
  have hsplit := chainUp_add accounts i (k - i) x
  rw [Nat.add_sub_cancel' (Nat.le_of_lt hik)] at hsplit
  rw [hsplit, hy] at h
  simp only [Option.some_bind] at h
  have hpos : ∃ j, k - i = j + 1 := ⟨k - i - 1, by omega⟩
  rcases hpos with ⟨j, hj⟩
  rw [hj, chainUp] at h
  cases hf : findAccount accounts y with
  | none => rw [hf] at h; simp at h
  | some a =>
    rcases findAccount_mem accounts y a hf with ⟨ha, hid⟩
    exact ⟨a, ha, hid⟩

theorem chainUp_shorten (accounts : List Account) (x b : Nat) :
    ∀ k, chainUp accounts x k = some b →
      ∃ m, m ≤ accounts.length ∧ (1 ≤ k → 1 ≤ m) ∧ chainUp accounts x m = some b := by
  intro k
  induction k using Nat.strong_induction_on with
  | _ k ih =>
    intro hchain
    by_cases hrep : ∃ i, ∃ j, i < j ∧ j < k ∧ chainUp accounts x i = chainUp accounts x j
    · rcases hrep with ⟨i, j, hij, hjk, heq⟩
      rcases chainUp_isSome_of_le accounts x b j k (Nat.le_of_lt hjk) hchain with ⟨y, hy⟩
      have hsplit := chainUp_add accounts j (k - j) x
      rw [Nat.add_sub_cancel' (Nat.le_of_lt hjk)] at hsplit
      have htail : chainUp accounts y (k - j) = some b := by
        rw [hsplit, hy] at hchain
        simpa only [Option.some_bind] using hchain
      have hshort : chainUp accounts x (i + (k - j)) = some b := by
        rw [chainUp_add accounts i (k - j) x, heq, hy]
        simpa only [Option.some_bind] using htail
      have hlt : i + (k - j) < k := by omega
      rcases ih (i + (k - j)) hlt hshort with ⟨m, hm, hm1, hmchain⟩
      exact ⟨m, hm, fun _ => hm1 (by omega), hmchain⟩
    · push_neg at hrep
      by_cases hk : k ≤ accounts.length
      · exact ⟨k, hk, fun h => h, hchain⟩
      · exfalso
        set L : List (Option Nat) := (List.range k).map (fun i => chainUp accounts x i) with hL
        have hnodup : L.Nodup := by
          refine List.Nodup.map_on ?_ (List.nodup_range k)
          intro i hi j hj hfij
          rcases Nat.lt_trichotomy i j with hlt | heq | hgt
          · exact absurd hfij (hrep i j hlt (List.mem_range.mp hj))
          · exact heq
          · exact absurd hfij.symm (hrep j i hgt (List.mem_range.mp hi))
        have hsub : L ⊆ (accounts.map (fun a => a.id)).map some := by
          intro o ho
          rcases List.mem_map.mp ho with ⟨i, hi, rfl⟩
          rcases chainUp_row_exists accounts x b k hchain i (List.mem_range.mp hi) with
            ⟨y, hy, a, ha, hid⟩
          rw [hy]
          exact List.mem_map_of_mem some (hid ▸ List.mem_map_of_mem (fun a => a.id) ha)
        have hcard : L.length ≤ ((accounts.map (fun a => a.id)).map some).length := by
          calc L.length = L.toFinset.card := (List.toFinset_card_of_nodup hnodup).symm
            _ ≤ ((accounts.map (fun a => a.id)).map some).toFinset.card := by
                refine Finset.card_le_card ?_
                intro o ho
                rw [List.mem_toFinset] at ho ⊢
                exact hsub ho
            _ ≤ ((accounts.map (fun a => a.id)).map some).length :=
                List.toFinset_card_le ((accounts.map (fun a => a.id)).map some)
        simp only [hL, List.length_map, List.length_range] at hcard
        omega

/-- Conviction subtree membership: with unique ids, the referral_tree
CTE returns exactly the root (when its row exists) together with the
ids whose upward sponsor chain reaches the root. -/
theorem mem_referralTree_iff (accounts : List Account) (r x : Nat)
    (hN : (accounts.map (fun a => a.id)).Nodup) :
    x ∈ referralTree accounts r ↔
      rowExists accounts r ∧
        (x = r ∨ (rowExists accounts x ∧ ∃ k, 1 ≤ k ∧ chainUp accounts x k = some r)) := by
  have hbase : ∀ b : Nat,
      (b ∈ (accounts.filter (fun a => decide (a.id = r))).map (fun a => a.id)) ↔
        (b = r ∧ rowExists accounts r) := by
    intro b
    simp only [List.mem_map, List.mem_filter, decide_eq_true_eq]
    constructor
    · rintro ⟨a, ⟨ha, hid⟩, rfl⟩
      exact ⟨hid, a, ha, hid⟩
    · rintro ⟨rfl, a, ha, hid⟩
      exact ⟨a, ⟨ha, hid⟩, hid⟩
  constructor
  · intro hx
    rw [referralTree, mem_treeLevels] at hx
    rcases hx with ⟨k, hk, hmem⟩
    rcases chain_of_mem_iterFrontier accounts _ hN k x hmem with ⟨⟨b, hbF, hchain⟩, hrow⟩
    rcases (hbase b).mp hbF with ⟨rfl, hr⟩
    cases k with
    | zero =>
      rw [chainUp] at hchain
      cases hchain
      exact ⟨hr, Or.inl rfl⟩
    | succ k =>
      exact ⟨hr, Or.inr ⟨hrow (Nat.succ_le_succ (Nat.zero_le k)), k + 1,
        Nat.succ_le_succ (Nat.zero_le k), hchain⟩⟩
  · rintro ⟨hr, hx | ⟨hxrow, k, hk1, hchain⟩⟩
    · subst hx
      rw [referralTree, mem_treeLevels]
      exact ⟨0, Nat.succ_pos _, (hbase x).mpr ⟨rfl, hr⟩⟩
    · rcases chainUp_shorten accounts x r k hchain with ⟨m, hmN, hm1, hmchain⟩
      rw [referralTree, mem_treeLevels]
      refine ⟨m, by omega, ?_⟩
      exact mem_iterFrontier_of_chain accounts _ m x r hmchain ((hbase r).mpr ⟨rfl, hr⟩)

/-- Sweep closure membership: with unique ids, the affected CTE returns
exactly the ids whose upward sponsor chain reaches some root id in at
least one step. -/
theorem mem_affectedIds_iff (accounts : List Account) (roots : List Nat) (x : Nat)
    (hN : (accounts.map (fun a => a.id)).Nodup) :
    x ∈ affectedIds accounts roots ↔
      rowExists accounts x ∧ ∃ k, 1 ≤ k ∧ ∃ rt ∈ roots, chainUp accounts x k = some rt := by
  constructor
  · intro hx
    rw [affectedIds, mem_treeLevels] at hx
    rcases hx with ⟨k, hk, hmem⟩
    rcases chain_of_mem_iterFrontier accounts _ hN k x hmem with ⟨⟨b, hbF, hchain⟩, hrow⟩
    rcases (mem_childIdsOf accounts roots b).mp hbF with ⟨a, ha, hid, rt, hrt, hsp⟩
    have hb1 : chainUp accounts b 1 = some rt := by
      rw [chainUp, ← hid, findAccount_of_mem_nodup accounts hN a ha]
      simp only [Option.some_bind]
      rw [hsp]
      simp only [Option.some_bind]
      rfl
    have hchain1 : chainUp accounts x (k + 1) = some rt := by
      rw [chainUp_add accounts k 1 x, hchain]
      simpa only [Option.some_bind] using hb1
    refine ⟨?_, k + 1, Nat.succ_le_succ (Nat.zero_le k), rt, hrt, hchain1⟩
    cases k with
    | zero =>
      rw [chainUp] at hchain
      cases hchain
      exact ⟨a, ha, hid⟩
    | succ k => exact hrow (Nat.succ_le_succ (Nat.zero_le k))
  · rintro ⟨hxrow, k, hk1, rt, hrt, hchain⟩
    rcases chainUp_shorten accounts x rt k hchain with ⟨m, hmN, hm1, hmchain⟩
    rcases Nat.exists_eq_add_of_le (hm1 hk1) with ⟨m1, hm1eq⟩
    have hmeq : m = m1 + 1 := by omega
    subst hmeq
    rw [chainUp_add accounts m1 1 x] at hmchain
    cases hy : chainUp accounts x m1 with
    | none => rw [hy] at hmchain; simp at hmchain
    | some y =>
      rw [hy] at hmchain
      simp only [Option.some_bind] at hmchain
      rw [chainUp] at hmchain
      cases hf : findAccount accounts y with
      | none => rw [hf] at hmchain; simp at hmchain
      | some a =>
        rw [hf] at hmchain
        simp only [Option.some_bind] at hmchain
        cases hsp : a.sponsor_id with
        | none => rw [hsp] at hmchain; simp at hmchain
        | some p =>
          rw [hsp] at hmchain
          simp only [Option.some_bind] at hmchain
          rw [chainUp] at hmchain
          injection hmchain with hpr
          rw [hpr] at hsp
          rcases findAccount_mem accounts y a hf with ⟨ha, hid⟩
          have hyF : y ∈ childIdsOf accounts roots :=
            (mem_childIdsOf accounts roots y).mpr ⟨a, ha, hid, rt, hrt, hsp⟩
          rw [affectedIds, mem_treeLevels]
          exact ⟨m1, by omega, mem_iterFrontier_of_chain accounts _ m1 x y hy hyF⟩

/-! ### Effect-shape lemmas for the row-updating operations -/

theorem map_eq_self_of_forall {α : Type} (l : List α) (g : α → α)
    (h : ∀ a ∈ l, g a = a) : l.map g = l := by
  induction l with
  | nil => rfl
  | cons a tl ih =>
    rw [List.map_cons, h a (List.mem_cons_self a tl),
      ih (fun b hb => h b (List.mem_cons_of_mem a hb))]

theorem map_congr_of_forall {α β : Type} (l : List α) (g h : α → β)
    (hgh : ∀ a ∈ l, g a = h a) : l.map g = l.map h := by
  induction l with
  | nil => rfl
  | cons a tl ih =>
    rw [List.map_cons, List.map_cons, hgh a (List.mem_cons_self a tl),
      ih (fun b hb => hgh b (List.mem_cons_of_mem a hb))]

/-- The downstream UPDATE is skipped on an empty id set, which is the
same as running it vacuously. -/
theorem downstream_if_empty (l : List Account) (ds : List Nat) (recAt t : Nat) :
    (if ds.isEmpty then l else l.map (downstreamRow ds recAt t))
      = l.map (downstreamRow ds recAt t) := by
  by_cases h : ds.isEmpty
  · rw [if_pos h]
    refine (map_eq_self_of_forall l _ ?_).symm
    intro a _
    unfold downstreamRow
    rw [if_neg]
    rintro ⟨hmem, -⟩
    rw [List.isEmpty_iff] at h
    subst h
    cases hmem
  · rw [if_neg h]

theorem banRootRow_id (rootId now : Nat) (a : Account) :
    (banRootRow rootId now a).id = a.id := by
  unfold banRootRow; split <;> rfl

theorem banRootRow_sponsor (rootId now : Nat) (a : Account) :
    (banRootRow rootId now a).sponsor_id = a.sponsor_id := by
  unfold banRootRow; split <;> rfl

theorem downstreamRow_id (ds : List Nat) (recAt now : Nat) (a : Account) :
    (downstreamRow ds recAt now a).id = a.id := by
  unfold downstreamRow; split <;> rfl

theorem downstreamRow_sponsor (ds : List Nat) (recAt now : Nat) (a : Account) :
    (downstreamRow ds recAt now a).sponsor_id = a.sponsor_id := by
  unfold downstreamRow; split <;> rfl

theorem demeritRow_id (p now : Nat) (a : Account) :
    (demeritRow p now a).id = a.id := by
  unfold demeritRow; split <;> rfl

theorem demeritRow_sponsor (p now : Nat) (a : Account) :
    (demeritRow p now a).sponsor_id = a.sponsor_id := by
  unfold demeritRow; split <;> rfl

theorem sweepRow_id (aff : List Nat) (now : Nat) (a : Account) :
    (sweepRow aff now a).id = a.id := by
  unfold sweepRow; split <;> rfl

theorem findAccount_map (l : List Account) (f : Account → Account) (x : Nat)
    (hid : ∀ a, (f a).id = a.id) :
    findAccount (l.map f) x = (findAccount l x).map f := by
  unfold findAccount
  have hpred : ((fun a => decide (a.id = x)) ∘ f) = (fun a : Account => decide (a.id = x)) := by
    funext a
    simp [Function.comp, hid a]
  rw [List.find?_map, hpred]

theorem childIdsOf_map (l : List Account) (F : List Nat) (f : Account → Account)
    (hid : ∀ a, (f a).id = a.id) (hsp : ∀ a, (f a).sponsor_id = a.sponsor_id) :
    childIdsOf (l.map f) F = childIdsOf l F := by
  unfold childIdsOf
  have hpred : ((fun a => match a.sponsor_id with
        | some p => F.contains p
        | none => false) ∘ f)
      = (fun a : Account => match a.sponsor_id with
        | some p => F.contains p
        | none => false) := by
    funext a
    simp only [Function.comp_apply, hsp a]
  rw [List.filter_map, hpred, List.map_map]
  exact map_congr_of_forall _ _ _ (fun a _ => hid a)

theorem treeLevels_map (l : List Account) (f : Account → Account)
    (hid : ∀ a, (f a).id = a.id) (hsp : ∀ a, (f a).sponsor_id = a.sponsor_id) :
    ∀ (fuel : Nat) (F : List Nat), treeLevels (l.map f) F fuel = treeLevels l F fuel := by
  intro fuel
  induction fuel with
  | zero => intro F; rfl
  | succ fuel ih =>
    intro F
    rw [treeLevels, treeLevels, childIdsOf_map l F f hid hsp, ih]

theorem rootBase_map (l : List Account) (f : Account → Account) (r : Nat)
    (hid : ∀ a, (f a).id = a.id) :
    ((l.map f).filter (fun a => decide (a.id = r))).map (fun a => a.id)
      = (l.filter (fun a => decide (a.id = r))).map (fun a => a.id) := by
  have hpred : ((fun a => decide (a.id = r)) ∘ f) = (fun a : Account => decide (a.id = r)) := by
    funext a
    simp [Function.comp, hid a]
  rw [List.filter_map, hpred, List.map_map]
  exact map_congr_of_forall _ _ _ (fun a _ => hid a)

theorem referralTree_map (l : List Account) (f : Account → Account) (r : Nat)
    (hid : ∀ a, (f a).id = a.id) (hsp : ∀ a, (f a).sponsor_id = a.sponsor_id) :
    referralTree (l.map f) r = referralTree l r := by
  rw [referralTree, referralTree, List.length_map, rootBase_map l f r hid,
    treeLevels_map l f hid hsp]

/-- The convicted root never appears among the downstream ids. -/
theorem root_not_mem_downstream (accounts : List Account) (rootId : Nat) :
    rootId ∉ (referralTree accounts rootId).filter (fun x => decide (x ≠ rootId)) := by
  intro h
  rcases List.mem_filter.mp h with ⟨-, hne⟩
  simp at hne

/-- Normalized success equation for convict_and_ban_tree (the skipped
empty-downstream UPDATE is replaced by the equivalent vacuous map). -/
theorem convict_ok_eq (s : State) (rootId : Nat) (reason : String) (now : Nat)
    (root : Account) (hf : findAccount s.accounts rootId = some root) :
    convict_and_ban_tree s rootId reason now =
      .ok ((rootId, (referralTree s.accounts rootId).filter (fun x => decide (x ≠ rootId)),
            root.sponsor_id),
        { accounts :=
            (match root.sponsor_id with
             | some p => (((s.accounts.map (banRootRow rootId now)).map
                 (downstreamRow ((referralTree s.accounts rootId).filter (fun x => decide (x ≠ rootId)))
                   (now + RECOVERY_COOLDOWN_HOURS) now))).map (demeritRow p now)
             | none => ((s.accounts.map (banRootRow rootId now)).map
                 (downstreamRow ((referralTree s.accounts rootId).filter (fun x => decide (x ≠ rootId)))
                   (now + RECOVERY_COOLDOWN_HOURS) now))),
          invites := s.invites.map (deactivateInviteRow (referralTree s.accounts rootId)),
          events := s.events ++
            (match root.sponsor_id with
             | some p => [{ account_id := p, event_type := "demerit_assessed" }]
             | none => []) ++
            [{ account_id := rootId, event_type := "account_banned" }] ++
            ((referralTree s.accounts rootId).filter (fun x => decide (x ≠ rootId))).map (fun d =>
              { account_id := d, event_type := "revouch_required_due_to_upstream_ban" }) }) := by
  unfold convict_and_ban_tree
  rw [hf]
  dsimp only []
  rw [downstream_if_empty]


/-! ### C1: conviction replay -/

theorem deactivateInviteRow_idem (st : List Nat) (i : InviteCode) :
    deactivateInviteRow st (deactivateInviteRow st i) = deactivateInviteRow st i := by
  unfold deactivateInviteRow
  by_cases h : i.sponsor_id ∈ st
  · simp [h]
  · simp [h]

theorem convict_row_second (rootId p now : Nat) (ds : List Nat) (recAt : Nat)
    (hroot : rootId ∉ ds) (a : Account) :
    demeritRow p now (downstreamRow ds recAt now (banRootRow rootId now
        (demeritRow p now (downstreamRow ds recAt now (banRootRow rootId now a)))))
      = (fun b => if b.id = p then { b with demerit_count := b.demerit_count + 1 } else b)
          (demeritRow p now (downstreamRow ds recAt now (banRootRow rootId now a))) := by
  by_cases h1 : a.id = rootId
  · subst h1
    by_cases h4 : a.id = p
    · subst h4
      simp [banRootRow, downstreamRow, demeritRow, hroot]
    · simp [banRootRow, downstreamRow, demeritRow, hroot, h4]
  · by_cases h2 : a.id ∈ ds
    · by_cases h3 : a.status = .banned
      · by_cases h4 : a.id = p
        · subst h4
          simp [banRootRow, downstreamRow, demeritRow, h1, h2, h3]
        · simp [banRootRow, downstreamRow, demeritRow, h1, h2, h3, h4]
      · by_cases h4 : a.id = p
        · subst h4
          simp [banRootRow, downstreamRow, demeritRow, h1, h2, h3]
        · simp [banRootRow, downstreamRow, demeritRow, h1, h2, h3, h4]
    · by_cases h4 : a.id = p
      · subst h4
        simp [banRootRow, downstreamRow, demeritRow, h1, h2]
      · simp [banRootRow, downstreamRow, demeritRow, h1, h2, h4]

theorem convict_row_second_nosp (rootId now : Nat) (ds : List Nat) (recAt : Nat)
    (hroot : rootId ∉ ds) (a : Account) :
    downstreamRow ds recAt now (banRootRow rootId now
        (downstreamRow ds recAt now (banRootRow rootId now a)))
      = downstreamRow ds recAt now (banRootRow rootId now a) := by
  by_cases h1 : a.id = rootId
  · subst h1
    simp [banRootRow, downstreamRow, hroot]
  · by_cases h2 : a.id ∈ ds
    · by_cases h3 : a.status = .banned
      · simp [banRootRow, downstreamRow, h1, h2, h3]
      · simp [banRootRow, downstreamRow, h1, h2, h3]
    · simp [banRootRow, downstreamRow, h1, h2]

/-- Claim C1 (amended): conviction is not idempotent on the sponsor's
demerit counter.  Replaying convict_and_ban_tree on the same root at
the same timestamp succeeds, returns the same tuple, and leaves every
invite code and every account row identical to the state after the
first call, except that when the root has a sponsor, that sponsor
row's demerit_count is incremented by one again. -/
theorem C1_conviction_replay (s : State) (rootId : Nat) (reason : String) (now : Nat)
    (res1 : Nat × List Nat × Option Nat) (s1 : State)
    (h1 : convict_and_ban_tree s rootId reason now = .ok (res1, s1)) :
    ∃ s2, convict_and_ban_tree s1 rootId reason now = .ok (res1, s2) ∧
      s2.invites = s1.invites ∧
      s2.accounts = (match res1.2.2 with
        | some p => s1.accounts.map (fun b =>
            if b.id = p then { b with demerit_count := b.demerit_count + 1 } else b)
        | none => s1.accounts) := by
  cases hf : findAccount s.accounts rootId with
  | none =>
    unfold convict_and_ban_tree at h1
    rw [hf] at h1
    exact Except.noConfusion h1
  | some root =>
    rw [convict_ok_eq s rootId reason now root hf] at h1
    rw [Except.ok.injEq, Prod.mk.injEq] at h1
    obtain ⟨hres, hstate⟩ := h1
    subst hres
    subst hstate
    cases hsp : root.sponsor_id with
    | none =>
      dsimp only []
      have hcomp_id : ∀ a : Account,
          (downstreamRow ((referralTree s.accounts rootId).filter (fun x => decide (x ≠ rootId)))
            (now + RECOVERY_COOLDOWN_HOURS) now (banRootRow rootId now a)).id = a.id := by
        intro a
        rw [downstreamRow_id, banRootRow_id]
      have hcomp_sp : ∀ a : Account,
          (downstreamRow ((referralTree s.accounts rootId).filter (fun x => decide (x ≠ rootId)))
            (now + RECOVERY_COOLDOWN_HOURS) now (banRootRow rootId now a)).sponsor_id = a.sponsor_id := by
        intro a
        rw [downstreamRow_sponsor, banRootRow_sponsor]
      have hf2 : findAccount
          ((s.accounts.map (banRootRow rootId now)).map
            (downstreamRow ((referralTree s.accounts rootId).filter (fun x => decide (x ≠ rootId)))
              (now + RECOVERY_COOLDOWN_HOURS) now)) rootId
          = some (downstreamRow ((referralTree s.accounts rootId).filter (fun x => decide (x ≠ rootId)))
              (now + RECOVERY_COOLDOWN_HOURS) now (banRootRow rootId now root)) := by
        rw [List.map_map, findAccount_map]
        · rw [hf]
          rfl
        · intro a
          exact hcomp_id a
      rw [convict_ok_eq _ rootId reason now _ hf2]
      have htr2 : referralTree
          ((s.accounts.map (banRootRow rootId now)).map
            (downstreamRow ((referralTree s.accounts rootId).filter (fun x => decide (x ≠ rootId)))
              (now + RECOVERY_COOLDOWN_HOURS) now)) rootId
          = referralTree s.accounts rootId := by
        rw [List.map_map, referralTree_map]
        · intro a
          exact hcomp_id a
        · intro a
          exact hcomp_sp a
      rw [htr2]
      have hsp2 : (downstreamRow ((referralTree s.accounts rootId).filter (fun x => decide (x ≠ rootId)))
          (now + RECOVERY_COOLDOWN_HOURS) now (banRootRow rootId now root)).sponsor_id = none := by
        rw [hcomp_sp root, hsp]
      rw [hsp2]
      dsimp only []
      refine ⟨_, rfl, ?_, ?_⟩
      · simp only [List.map_map]
        refine map_congr_of_forall _ _ _ ?_
        intro i _
        exact deactivateInviteRow_idem _ i
      · simp only [List.map_map]
        refine map_congr_of_forall _ _ _ ?_
        intro a _
        exact convict_row_second_nosp rootId now _ _ (root_not_mem_downstream s.accounts rootId) a
    | some p =>
      dsimp only []
      have hcomp_id : ∀ a : Account,
          (demeritRow p now (downstreamRow ((referralTree s.accounts rootId).filter (fun x => decide (x ≠ rootId)))
            (now + RECOVERY_COOLDOWN_HOURS) now (banRootRow rootId now a))).id = a.id := by
        intro a
        rw [demeritRow_id, downstreamRow_id, banRootRow_id]
      have hcomp_sp : ∀ a : Account,
          (demeritRow p now (downstreamRow ((referralTree s.accounts rootId).filter (fun x => decide (x ≠ rootId)))
            (now + RECOVERY_COOLDOWN_HOURS) now (banRootRow rootId now a))).sponsor_id = a.sponsor_id := by
        intro a
        rw [demeritRow_sponsor, downstreamRow_sponsor, banRootRow_sponsor]
      have hf2 : findAccount
          (((s.accounts.map (banRootRow rootId now)).map
            (downstreamRow ((referralTree s.accounts rootId).filter (fun x => decide (x ≠ rootId)))
              (now + RECOVERY_COOLDOWN_HOURS) now)).map (demeritRow p now)) rootId
          = some (demeritRow p now (downstreamRow ((referralTree s.accounts rootId).filter (fun x => decide (x ≠ rootId)))
              (now + RECOVERY_COOLDOWN_HOURS) now (banRootRow rootId now root))) := by
        rw [List.map_map, List.map_map, findAccount_map]
        · rw [hf]
          rfl
        · intro a
          exact hcomp_id a
      rw [convict_ok_eq _ rootId reason now _ hf2]
      have htr2 : referralTree
          (((s.accounts.map (banRootRow rootId now)).map
            (downstreamRow ((referralTree s.accounts rootId).filter (fun x => decide (x ≠ rootId)))
              (now + RECOVERY_COOLDOWN_HOURS) now)).map (demeritRow p now)) rootId
          = referralTree s.accounts rootId := by
        rw [List.map_map, List.map_map, referralTree_map]
        · intro a
          exact hcomp_id a
        · intro a
          exact hcomp_sp a
      rw [htr2]
      have hsp2 : (demeritRow p now (downstreamRow ((referralTree s.accounts rootId).filter (fun x => decide (x ≠ rootId)))
          (now + RECOVERY_COOLDOWN_HOURS) now (banRootRow rootId now root))).sponsor_id = some p := by
        rw [hcomp_sp root, hsp]
      rw [hsp2]
      dsimp only []
      refine ⟨_, rfl, ?_, ?_⟩
      · simp only [List.map_map]
        refine map_congr_of_forall _ _ _ ?_
        intro i _
        exact deactivateInviteRow_idem _ i
      · simp only [List.map_map]
        refine map_congr_of_forall _ _ _ ?_
        intro a _
        exact convict_row_second rootId p now _ _ (root_not_mem_downstream s.accounts rootId) a

/-- Claim C1 counterexample: conviction is not idempotent.  In the
two-account chain A(0) sponsors B(1), convicting B twice at the same
timestamp leaves A with demerit_count 2 after the second call versus 1
after the first, so the final states differ. -/
theorem C1_counterexample :
    ∃ res1 s1 res2 s2,
      convict_and_ban_tree
        { accounts := [testAccount 0 none .active 0 (some 0) none 0 0,
                       testAccount 1 (some 0) .active 0 (some 0) none 0 0],
          invites := [], events := [] } 1 "bot" 100 = .ok (res1, s1) ∧
      convict_and_ban_tree s1 1 "bot" 100 = .ok (res2, s2) ∧
      s1.accounts.map (fun a => a.demerit_count) = [1, 0] ∧
      s2.accounts.map (fun a => a.demerit_count) = [2, 0] ∧
      s2.accounts ≠ s1.accounts := by
  refine ⟨_, _, _, _, rfl, rfl, ?_, ?_, ?_⟩ <;> decide

/-- Claim C1 witness: the amended replay theorem applied to the
concrete two-account chain. -/
theorem C1_witness :
    ∃ res1 s1 s2,
      convict_and_ban_tree
        { accounts := [testAccount 0 none .active 0 (some 0) none 0 0,
                       testAccount 1 (some 0) .active 0 (some 0) none 0 0],
          invites := [], events := [] } 1 "bot" 100 = .ok (res1, s1) ∧
      convict_and_ban_tree s1 1 "bot" 100 = .ok (res1, s2) ∧
      s2.invites = s1.invites := by
  obtain ⟨s2, h2, hinv, hacc⟩ := C1_conviction_replay
    { accounts := [testAccount 0 none .active 0 (some 0) none 0 0,
                   testAccount 1 (some 0) .active 0 (some 0) none 0 0],
      invites := [], events := [] } 1 "bot" 100 _ _ rfl
  exact ⟨_, _, s2, rfl, h2, hinv⟩



/-! ### C2: the conviction chain scenario -/

/-- Claim C2 (amended): the bootstrap-chain conviction scenario. -/
theorem C2_convict_chain
    (uA eA : String) (hA : Option String) (vA : AuthProvider) (jA : Option String)
    (dA : Nat) (tA rA : Option Nat) (lA cA wA : Nat)
    (uB eB : String) (hB : Option String) (vB : AuthProvider) (jB : Option String)
    (dB : Nat) (tB rB : Option Nat) (lB cB wB : Nat)
    (uC eC : String) (hC : Option String) (vC : AuthProvider) (jC : Option String)
    (dC : Nat) (tC rC : Option Nat) (lC cC wC : Nat)
    (uD eD : String) (hD : Option String) (vD : AuthProvider) (jD : Option String)
    (dD : Nat) (tD rD : Option Nat) (lD cD wD : Nat)
    (invs : List InviteCode) (evs : List AccountEvent) (reason : String) (now : Nat) :
    convict_and_ban_tree
        { accounts := [
            { id := 0, username := uA, email := eA, password_hash := hA, auth_provider := vA,
              auth_provider_subject := jA, sponsor_id := none, status := .active,
              demerit_count := dA, trust_started_at := tA, recovery_eligible_at := rA,
              last_active_at := lA, created_at := cA, updated_at := wA },
            { id := 1, username := uB, email := eB, password_hash := hB, auth_provider := vB,
              auth_provider_subject := jB, sponsor_id := some 0, status := .active,
              demerit_count := dB, trust_started_at := tB, recovery_eligible_at := rB,
              last_active_at := lB, created_at := cB, updated_at := wB },
            { id := 2, username := uC, email := eC, password_hash := hC, auth_provider := vC,
              auth_provider_subject := jC, sponsor_id := some 1, status := .active,
              demerit_count := dC, trust_started_at := tC, recovery_eligible_at := rC,
              last_active_at := lC, created_at := cC, updated_at := wC },
            { id := 3, username := uD, email := eD, password_hash := hD, auth_provider := vD,
              auth_provider_subject := jD, sponsor_id := some 2, status := .active,
              demerit_count := dD, trust_started_at := tD, recovery_eligible_at := rD,
              last_active_at := lD, created_at := cD, updated_at := wD }],
          invites := invs, events := evs } 1 reason now
      = .ok ((1, [2, 3], some 0),
        { accounts := [
            { id := 0, username := uA, email := eA, password_hash := hA, auth_provider := vA,
              auth_provider_subject := jA, sponsor_id := none, status := .active,
              demerit_count := dA + 1, trust_started_at := tA, recovery_eligible_at := rA,
              last_active_at := lA, created_at := cA, updated_at := now },
            { id := 1, username := uB, email := eB, password_hash := hB, auth_provider := vB,
              auth_provider_subject := jB, sponsor_id := some 0, status := .banned,
              demerit_count := dB, trust_started_at := none, recovery_eligible_at := none,
              last_active_at := lB, created_at := cB, updated_at := now },
            { id := 2, username := uC, email := eC, password_hash := hC, auth_provider := vC,
              auth_provider_subject := jC, sponsor_id := some 1, status := .revouch_required,
              demerit_count := dC, trust_started_at := none,
              recovery_eligible_at := some (now + RECOVERY_COOLDOWN_HOURS),
              last_active_at := lC, created_at := cC, updated_at := now },
            { id := 3, username := uD, email := eD, password_hash := hD, auth_provider := vD,
              auth_provider_subject := jD, sponsor_id := some 2, status := .revouch_required,
              demerit_count := dD, trust_started_at := none,
              recovery_eligible_at := some (now + RECOVERY_COOLDOWN_HOURS),
              last_active_at := lD, created_at := cD, updated_at := now }],
          invites := invs.map (fun i =>
            if i.sponsor_id = 1 ∨ i.sponsor_id = 2 ∨ i.sponsor_id = 3 then
              { i with is_active := false }
            else i),
          events := evs ++ [
            { account_id := 0, event_type := "demerit_assessed" },
            { account_id := 1, event_type := "account_banned" },
            { account_id := 2, event_type := "revouch_required_due_to_upstream_ban" },
            { account_id := 3, event_type := "revouch_required_due_to_upstream_ban" }] }) := by
  have hf : findAccount [
            { id := 0, username := uA, email := eA, password_hash := hA, auth_provider := vA,
              auth_provider_subject := jA, sponsor_id := none, status := .active,
              demerit_count := dA, trust_started_at := tA, recovery_eligible_at := rA,
              last_active_at := lA, created_at := cA, updated_at := wA },
            { id := 1, username := uB, email := eB, password_hash := hB, auth_provider := vB,
              auth_provider_subject := jB, sponsor_id := some 0, status := .active,
              demerit_count := dB, trust_started_at := tB, recovery_eligible_at := rB,
              last_active_at := lB, created_at := cB, updated_at := wB },
            { id := 2, username := uC, email := eC, password_hash := hC, auth_provider := vC,
              auth_provider_subject := jC, sponsor_id := some 1, status := .active,
              demerit_count := dC, trust_started_at := tC, recovery_eligible_at := rC,
              last_active_at := lC, created_at := cC, updated_at := wC },
            { id := 3, username := uD, email := eD, password_hash := hD, auth_provider := vD,
              auth_provider_subject := jD, sponsor_id := some 2, status := .active,
              demerit_count := dD, trust_started_at := tD, recovery_eligible_at := rD,
              last_active_at := lD, created_at := cD, updated_at := wD }] 1
      = some { id := 1, username := uB, email := eB, password_hash := hB, auth_provider := vB,
               auth_provider_subject := jB, sponsor_id := some 0, status := .active,
               demerit_count := dB, trust_started_at := tB, recovery_eligible_at := rB,
               last_active_at := lB, created_at := cB, updated_at := wB } := by
    simp [findAccount, List.find?]
  rw [convict_ok_eq _ 1 reason now _ hf]
  simp [referralTree, treeLevels, childIdsOf, banRootRow, downstreamRow, demeritRow,
    deactivateInviteRow, List.append_assoc]

/-- Claim C2 counterexample: in the concrete conviction scenario the
sponsor A is not left untouched apart from its demerit_count — the
demerit UPDATE also refreshes A's updated_at (0 before the call, set
to the conviction time 100), so "no other field of A changes" fails. -/
theorem C2_counterexample :
    ∃ res s',
      convict_and_ban_tree
        { accounts := [testAccount 0 none .active 0 (some 0) none 0 0,
                       testAccount 1 (some 0) .active 0 (some 0) none 0 0,
                       testAccount 2 (some 1) .active 0 (some 0) none 0 0,
                       testAccount 3 (some 2) .active 0 (some 0) none 0 0],
          invites := [{ code := "bc", sponsor_id := 1, max_uses := 1, uses := 1,
                        expires_at := none, is_active := false, created_at := 0 }],
          events := [] } 1 "bot" 100 = .ok (res, s') ∧
      s'.accounts.head? ≠
        some { testAccount 0 none .active 0 (some 0) none 0 0 with demerit_count := 1 } ∧
      (s'.accounts.head?).map (fun a => a.updated_at) = some 100 := by
  refine ⟨_, _, rfl, ?_, ?_⟩ <;> decide


/-! ### C9: the conviction return value -/

/-- Claim C9: the downstream_ids list returned by convict_and_ban_tree
is the full sponsorship subtree of the root minus the root itself — its
membership condition is purely the sponsor chain, independent of the
member's status (already-banned descendants included) — and
penalized_sponsor_id is the root row's sponsor_id.  Moreover banned
rows other than the root and the penalized sponsor survive unmodified. -/
theorem C9_downstream_ids (s : State) (rootId : Nat) (reason : String) (now : Nat)
    (root : Nat) (ds : List Nat) (p : Option Nat) (s1 : State)
    (hN : (s.accounts.map (fun a => a.id)).Nodup)
    (h : convict_and_ban_tree s rootId reason now = .ok ((root, ds, p), s1)) :
    root = rootId ∧
    (∀ x, x ∈ ds ↔ x ≠ rootId ∧ rowExists s.accounts x ∧
        ∃ k, 1 ≤ k ∧ chainUp s.accounts x k = some rootId) ∧
    (∃ rootRow, findAccount s.accounts rootId = some rootRow ∧ p = rootRow.sponsor_id) ∧
    (∀ a ∈ s.accounts, a.status = .banned → a.id ≠ rootId → p ≠ some a.id →
      a ∈ s1.accounts) := by
  cases hf : findAccount s.accounts rootId with
  | none =>
    unfold convict_and_ban_tree at h
    rw [hf] at h
    exact Except.noConfusion h
  | some rootRow =>
    rw [convict_ok_eq s rootId reason now rootRow hf] at h
    rw [Except.ok.injEq, Prod.mk.injEq] at h
    obtain ⟨hres, hstate⟩ := h
    rw [Prod.mk.injEq, Prod.mk.injEq] at hres
    obtain ⟨ha, hb, hc⟩ := hres
    subst ha
    subst hb
    subst hc
    subst hstate
    refine ⟨rfl, ?_, ⟨rootRow, rfl, rfl⟩, ?_⟩
    · intro x
      rw [List.mem_filter, mem_referralTree_iff s.accounts rootId x hN]
      constructor
      · rintro ⟨⟨hr, hcases⟩, hne⟩
        rw [decide_eq_true_eq] at hne
        rcases hcases with rfl | ⟨hrow, k, hk, hchain⟩
        · exact absurd rfl hne
        · exact ⟨hne, hrow, k, hk, hchain⟩
      · rintro ⟨hne, hrow, k, hk, hchain⟩
        have hr : rowExists s.accounts rootId :=
          ⟨rootRow, (findAccount_mem _ _ _ hf).1, (findAccount_mem _ _ _ hf).2⟩
        exact ⟨⟨hr, Or.inr ⟨hrow, k, hk, hchain⟩⟩, by
          rw [decide_eq_true_eq]
          exact hne⟩
    · intro a ha hban hne hpne
      have hb1 : banRootRow rootId now a = a := by
        unfold banRootRow
        rw [if_neg hne]
      have hb2 : downstreamRow ((referralTree s.accounts rootId).filter
          (fun x => decide (x ≠ rootId))) (now + RECOVERY_COOLDOWN_HOURS) now a = a := by
        unfold downstreamRow
        rw [if_neg]
        rintro ⟨-, hcontra⟩
        exact hcontra hban
      cases hspon : rootRow.sponsor_id with
      | none =>
        dsimp only []
        simp only [List.map_map]
        refine List.mem_map.mpr ⟨a, ha, ?_⟩
        show downstreamRow ((referralTree s.accounts rootId).filter
            (fun x => decide (x ≠ rootId))) (now + RECOVERY_COOLDOWN_HOURS) now
            (banRootRow rootId now a) = a
        rw [hb1, hb2]
      | some q =>
        have hq : q ≠ a.id := by
          intro hqe
          rw [hspon, hqe] at hpne
          exact hpne rfl
        dsimp only []
        simp only [List.map_map]
        refine List.mem_map.mpr ⟨a, ha, ?_⟩
        show demeritRow q now (downstreamRow ((referralTree s.accounts rootId).filter
            (fun x => decide (x ≠ rootId))) (now + RECOVERY_COOLDOWN_HOURS) now
            (banRootRow rootId now a)) = a
        rw [hb1, hb2]
        unfold demeritRow
        rw [if_neg (fun hcontra => hq hcontra.symm)]

/-- Claim C9 witness: in the chain A(0) -> B(1) -> C(2) with C already
banned, convicting B returns downstream_ids containing the banned C. -/
theorem C9_witness :
    (2 : Nat) ∈ ([2] : List Nat) ↔ (2 : Nat) ≠ 1 ∧
      rowExists [testAccount 0 none .active 0 (some 0) none 0 0,
                 testAccount 1 (some 0) .active 0 (some 0) none 0 0,
                 testAccount 2 (some 1) .banned 0 none none 0 0] 2 ∧
      ∃ k, 1 ≤ k ∧ chainUp [testAccount 0 none .active 0 (some 0) none 0 0,
                 testAccount 1 (some 0) .active 0 (some 0) none 0 0,
                 testAccount 2 (some 1) .banned 0 none none 0 0] 2 k = some 1 := by
  have h := C9_downstream_ids
    { accounts := [testAccount 0 none .active 0 (some 0) none 0 0,
                   testAccount 1 (some 0) .active 0 (some 0) none 0 0,
                   testAccount 2 (some 1) .banned 0 none none 0 0],
      invites := [], events := [] } 1 "bot" 100 1 [2] (some 0) _ (by decide) rfl
  exact h.2.1 2


/-! ### C4: the inactivity sweep -/

theorem mem_id_unique (accounts : List Account)
    (hN : (accounts.map (fun a => a.id)).Nodup) (a b : Account)
    (ha : a ∈ accounts) (hb : b ∈ accounts) (hid : b.id = a.id) : b = a := by
  have h1 := findAccount_of_mem_nodup accounts hN a ha
  have h2 := findAccount_of_mem_nodup accounts hN b hb
  rw [hid, h1] at h2
  injection h2 with h
  exact h.symm

/-- Claim C4 (amended): the inactivity sweep marks exactly the
currently-active accounts whose sponsor chain reaches (in at least one
step) some active account with last_active_at before the cutoff; an
inactive root is marked precisely when it is itself such a proper
descendant of another inactive root.  Marked rows get revouch_required
with both trust timestamps cleared; invites are untouched; the
returned list is exactly the marked ids. -/
theorem C4_sweep (s : State) (inactivityDays now : Nat)
    (hN : (s.accounts.map (fun a => a.id)).Nodup) :
    ∃ marked s1, expire_inactive_sponsor_trees s inactivityDays now = (marked, s1) ∧
      (∀ x, x ∈ marked ↔ ∃ a ∈ s.accounts, a.id = x ∧ a.status = .active ∧
          ∃ k, 1 ≤ k ∧ ∃ rt, chainUp s.accounts x k = some rt ∧
            ∃ ra ∈ s.accounts, ra.id = rt ∧ ra.status = .active ∧
              ra.last_active_at < now - inactivityDays * 24) ∧
      s1.invites = s.invites ∧
      s1.accounts = s.accounts.map (fun a =>
        if a.id ∈ marked then
          { a with status := .revouch_required, trust_started_at := none,
                   recovery_eligible_at := none, updated_at := now }
        else a) := by
  refine ⟨_, _, rfl, ?_, rfl, ?_⟩
  · intro x
    constructor
    · intro hx
      rcases List.mem_map.mp hx with ⟨a, hafil, rfl⟩
      rcases List.mem_filter.mp hafil with ⟨ha, hpred⟩
      rw [decide_eq_true_eq] at hpred
      obtain ⟨haff, hact⟩ := hpred
      rcases (mem_affectedIds_iff s.accounts _ a.id hN).mp haff with
        ⟨-, k, hk, rt, hrt, hchain⟩
      rcases List.mem_map.mp hrt with ⟨ra, hrafil, rfl⟩
      rcases List.mem_filter.mp hrafil with ⟨hra, hrpred⟩
      rw [decide_eq_true_eq] at hrpred
      exact ⟨a, ha, rfl, hact, k, hk, ra.id, hchain, ra, hra, rfl, hrpred.1, hrpred.2⟩
    · rintro ⟨a, ha, rfl, hact, k, hk, rt, hchain, ra, hra, hrid, hract, hlast⟩
      refine List.mem_map.mpr ⟨a, List.mem_filter.mpr ⟨ha, ?_⟩, rfl⟩
      rw [decide_eq_true_eq]
      refine ⟨?_, hact⟩
      refine (mem_affectedIds_iff s.accounts _ a.id hN).mpr
        ⟨⟨a, ha, rfl⟩, k, hk, rt, ?_, hchain⟩
      refine List.mem_map.mpr ⟨ra, List.mem_filter.mpr ⟨hra, ?_⟩, hrid⟩
      rw [decide_eq_true_eq]
      exact ⟨hract, hlast⟩
  · refine map_congr_of_forall _ _ _ ?_
    intro a ha
    unfold sweepRow
    by_cases hcond : a.id ∈ affectedIds s.accounts
        (inactiveRootIds s.accounts (now - inactivityDays * 24)) ∧ a.status = .active
    · rw [if_pos hcond, if_pos]
      exact List.mem_map.mpr ⟨a, List.mem_filter.mpr ⟨ha, by
        rw [decide_eq_true_eq]
        exact hcond⟩, rfl⟩
    · rw [if_neg hcond, if_neg]
      intro hmem
      rcases List.mem_map.mp hmem with ⟨b, hbfil, hbid⟩
      rcases List.mem_filter.mp hbfil with ⟨hb, hbpred⟩
      rw [decide_eq_true_eq] at hbpred
      have hba : b = a := mem_id_unique s.accounts hN a b ha hb hbid
      rw [hba] at hbpred
      exact hcond hbpred

/-- Claim C4 counterexample: with A(0) sponsoring B(1), both active and
both inactive since before the cutoff, the sweep marks B even though B
is itself an inactive root, refuting "no inactive root is ever marked". -/
theorem C4_counterexample :
    ∃ s1, expire_inactive_sponsor_trees
        { accounts := [testAccount 0 none .active 0 (some 0) none 0 0,
                       testAccount 1 (some 0) .active 0 (some 0) none 0 0],
          invites := [], events := [] } 90 2200 = ([1], s1) ∧
      (1 : Nat) ∈ inactiveRootIds
        [testAccount 0 none .active 0 (some 0) none 0 0,
         testAccount 1 (some 0) .active 0 (some 0) none 0 0] (2200 - 90 * 24) := by
  refine ⟨_, rfl, ?_⟩
  decide

/-- Claim C4 witness: the sweep characterization applied to the
concrete two-account chain of inactive accounts. -/
theorem C4_witness :
    ∃ marked s1,
      expire_inactive_sponsor_trees
        { accounts := [testAccount 0 none .active 0 (some 0) none 0 0,
                       testAccount 1 (some 0) .active 0 (some 0) none 0 0],
          invites := [], events := [] } 90 2200 = (marked, s1) ∧
      (∀ x, x ∈ marked ↔ ∃ a ∈ [testAccount 0 none .active 0 (some 0) none 0 0,
            testAccount 1 (some 0) .active 0 (some 0) none 0 0],
          a.id = x ∧ a.status = .active ∧
          ∃ k, 1 ≤ k ∧ ∃ rt, chainUp [testAccount 0 none .active 0 (some 0) none 0 0,
              testAccount 1 (some 0) .active 0 (some 0) none 0 0] x k = some rt ∧
            ∃ ra ∈ [testAccount 0 none .active 0 (some 0) none 0 0,
                testAccount 1 (some 0) .active 0 (some 0) none 0 0],
              ra.id = rt ∧ ra.status = .active ∧ ra.last_active_at < 2200 - 90 * 24) := by
  obtain ⟨marked, s1, heq, hiff, hinv, hacc⟩ :=
    C4_sweep { accounts := [testAccount 0 none .active 0 (some 0) none 0 0,
                            testAccount 1 (some 0) .active 0 (some 0) none 0 0],
               invites := [], events := [] } 90 2200 (by decide)
  exact ⟨marked, s1, heq, hiff⟩


/-! ### C7: revouch success postcondition -/

/-- Claim C7: whenever revouch_account returns successfully, the
returned account row has status active, sponsor_id equal to the
consumed invite's sponsor, trust_started_at = now and
recovery_eligible_at cleared, and that row is what is persisted for
the account id (with the consumed invite table persisted as well). -/
theorem C7_revouch_success (s : State) (accountId : Nat) (inviteCode : String) (now : Nat)
    (acct : Account) (s1 : State)
    (h : revouch_account s accountId inviteCode now = .ok (acct, s1)) :
    ∃ sponsorId invites1,
      consumeInviteCode s.invites inviteCode now = .ok (sponsorId, invites1) ∧
      acct.id = accountId ∧ acct.status = .active ∧
      acct.sponsor_id = some sponsorId ∧ acct.trust_started_at = some now ∧
      acct.recovery_eligible_at = none ∧
      findAccount s1.accounts accountId = some acct ∧ s1.invites = invites1 := by
  unfold revouch_account at h
  cases hfa : findAccount s.accounts accountId with
  | none =>
    rw [hfa] at h
    exact Except.noConfusion h
  | some account =>
    rw [hfa] at h
    dsimp only [] at h
    by_cases hban : account.status = .banned
    · rw [if_pos hban] at h
      exact Except.noConfusion h
    · rw [if_neg hban] at h
      by_cases hrev : account.status = .revouch_required
      · rw [if_neg (not_not_intro hrev)] at h
        cases hc : consumeInviteCode s.invites inviteCode now with
        | error e =>
          rw [hc] at h
          exact Except.noConfusion h
        | ok pr =>
          obtain ⟨sponsorId, invites1⟩ := pr
          rw [hc] at h
          dsimp only [] at h
          by_cases hself : sponsorId = accountId
          · rw [if_pos hself] at h
            exact Except.noConfusion h
          · rw [if_neg hself] at h
            cases hs : ensureActiveSponsor s.accounts sponsorId with
            | error e =>
              rw [hs] at h
              exact Except.noConfusion h
            | ok sponsor =>
              rw [hs] at h
              dsimp only [] at h
              cases hv : validateRecoverySponsor account sponsor now with
              | error e =>
                rw [hv] at h
                exact Except.noConfusion h
              | ok u =>
                rw [hv] at h
                dsimp only [] at h
                cases hfa2 : findAccount (s.accounts.map (fun a =>
                    if a.id = accountId then
                      { a with sponsor_id := some sponsorId, status := .active,
                               trust_started_at := some now, recovery_eligible_at := none,
                               updated_at := now }
                    else a)) accountId with
                | none =>
                  rw [hfa2] at h
                  exact Except.noConfusion h
                | some updatedRow =>
                  rw [hfa2] at h
                  dsimp only [] at h
                  rw [Except.ok.injEq, Prod.mk.injEq] at h
                  obtain ⟨hrow, hstate⟩ := h
                  subst hrow
                  subst hstate
                  have hid : ∀ a : Account, ((fun a =>
                      if a.id = accountId then
                        { a with sponsor_id := some sponsorId, status := .active,
                                 trust_started_at := some now, recovery_eligible_at := none,
                                 updated_at := now }
                      else a) a).id = a.id := by
                    intro a
                    dsimp only []
                    split <;> rfl
                  rw [findAccount_map _ _ _ hid, hfa] at hfa2
                  have haid : account.id = accountId := (findAccount_mem _ _ _ hfa).2
                  rw [Option.map_some'] at hfa2
                  injection hfa2 with hfa2
                  have hupd : updatedRow = { account with sponsor_id := some sponsorId, status := .active, trust_started_at := some now, recovery_eligible_at := none, updated_at := now } := by
                    rw [← hfa2]
                    rw [if_pos haid]
                  refine ⟨sponsorId, invites1, rfl, ?_, ?_, ?_, ?_, ?_, ?_, rfl⟩
                  · rw [hupd]
                    exact haid
                  · rw [hupd]
                  · rw [hupd]
                  · rw [hupd]
                  · rw [hupd]
                  · show findAccount (s.accounts.map (fun a =>
                        if a.id = accountId then
                          { a with sponsor_id := some sponsorId, status := .active,
                                   trust_started_at := some now, recovery_eligible_at := none,
                                   updated_at := now }
                        else a)) accountId = some updatedRow
                    rw [findAccount_map _ _ _ hid, hfa, Option.map_some', hfa2]
      · rw [if_pos hrev] at h
        exact Except.noConfusion h

/-- Claim C7 witness: the spec's recovery scenario — sponsor S(0)
active with 40 days of trust and 0 demerits, X(1) revouch_required
with elapsed cooldown, consuming a fresh invite from S. -/
theorem C7_witness :
    ∃ sponsorId invites1,
      consumeInviteCode
        [{ code := "inv", sponsor_id := 0, max_uses := 1, uses := 0,
           expires_at := none, is_active := true, created_at := 0 }] "inv" 960
        = .ok (sponsorId, invites1) := by
  obtain ⟨sponsorId, invites1, hc, hrest⟩ := C7_revouch_success
    { accounts := [testAccount 0 none .active 0 (some 0) none 0 0,
                   testAccount 1 (some 2) .revouch_required 0 none (some 100) 0 0],
      invites := [{ code := "inv", sponsor_id := 0, max_uses := 1, uses := 0,
                    expires_at := none, is_active := true, created_at := 0 }],
      events := [] } 1 "inv" 960 _ _ rfl
  exact ⟨sponsorId, invites1, hc⟩


/-! ### C10: the activity heartbeat -/

/-- Claim C10: touch_last_active is total (it returns a state for
every input, raising no business error), changes no invite and no
event, and touches only the last_active_at and updated_at fields of
the rows with the given id — status, sponsor, demerits and both trust
timestamps are untouched everywhere — and when no account has the id
it is the identity. -/
theorem C10_touch_frame (s : State) (accountId now : Nat) :
    (touch_last_active s accountId now).invites = s.invites ∧
    (touch_last_active s accountId now).events = s.events ∧
    (touch_last_active s accountId now).accounts.length = s.accounts.length ∧
    (∀ i, (touch_last_active s accountId now).accounts.get? i
        = (s.accounts.get? i).map (fun a =>
            if a.id = accountId then { a with last_active_at := now, updated_at := now }
            else a)) ∧
    (∀ i, ((touch_last_active s accountId now).accounts.get? i).map
        (fun a => (a.status, a.sponsor_id, a.demerit_count, a.trust_started_at,
          a.recovery_eligible_at))
      = (s.accounts.get? i).map
        (fun a => (a.status, a.sponsor_id, a.demerit_count, a.trust_started_at,
          a.recovery_eligible_at))) ∧
    ((∀ a ∈ s.accounts, a.id ≠ accountId) → touch_last_active s accountId now = s) := by
  have hget : ∀ i, (touch_last_active s accountId now).accounts.get? i
      = (s.accounts.get? i).map (fun a =>
          if a.id = accountId then { a with last_active_at := now, updated_at := now }
          else a) := by
    intro i
    unfold touch_last_active
    exact List.get?_map _ _ _
  refine ⟨rfl, rfl, List.length_map _ _, hget, ?_, ?_⟩
  · intro i
    rw [hget i]
    cases s.accounts.get? i with
    | none => rfl
    | some a =>
      rw [Option.map_some', Option.map_some', Option.map_some']
      by_cases h : a.id = accountId
      · rw [if_pos h]
      · rw [if_neg h]
  · intro hall
    unfold touch_last_active
    have hmap : s.accounts.map (fun a =>
        if a.id = accountId then { a with last_active_at := now, updated_at := now }
        else a) = s.accounts :=
      map_eq_self_of_forall _ _ (fun a ha => by rw [if_neg (hall a ha)])
    rw [hmap]

/-- Claim C10 witness: touching an id that does not exist leaves the
ledger unchanged. -/
theorem C10_witness :
    touch_last_active
        { accounts := [testAccount 0 none .active 0 none none 0 0],
          invites := [], events := [] } 5 77
      = { accounts := [testAccount 0 none .active 0 none none 0 0],
          invites := [], events := [] } := by
  exact (C10_touch_frame
    { accounts := [testAccount 0 none .active 0 none none 0 0],
      invites := [], events := [] } 5 77).2.2.2.2.2 (by decide)


/-! ### C8: transactional rollback of guard failures -/

/-- Claim C8: guard failures are atomic.  Whenever a registration
variant or revouch returns a typed error, committing the call leaves
the ledger exactly as before (no account row and no invite survives any
partial step), and in particular a duplicate-account failure detected
after the invite code was already consumed inside the transaction still
propagates as the duplicate error, whose rollback discards the consumed
invite state. -/
theorem C8_guard_rollback :
    (∀ (s : State) (u e ph c : String) (nid t : Nat) (err : ServiceErr),
        register_password_account s u e ph c nid t = .error err →
        commit s (register_password_account s u e ph c nid t) = s) ∧
    (∀ (s : State) (u e sub c : String) (nid t : Nat) (err : ServiceErr),
        register_google_account s u e sub c nid t = .error err →
        commit s (register_google_account s u e sub c nid t) = s) ∧
    (∀ (s : State) (u e ph : String) (nid t : Nat) (err : ServiceErr),
        create_bootstrap_account s u e ph nid t = .error err →
        commit s (create_bootstrap_account s u e ph nid t) = s) ∧
    (∀ (s : State) (aid : Nat) (c : String) (t : Nat) (err : ServiceErr),
        revouch_account s aid c t = .error err →
        commit s (revouch_account s aid c t) = s) ∧
    (∀ (s : State) (u e ph c : String) (nid t : Nat) (sponsorId : Nat)
        (invites1 : List InviteCode) (m : String),
        consumeInviteCode s.invites c t = .ok (sponsorId, invites1) →
        (∃ sp, ensureActiveSponsor s.accounts sponsorId = .ok sp) →
        ensureUniqueAccount s.accounts u e none = .error (.duplicateAccount m) →
        register_password_account s u e ph c nid t = .error (.duplicateAccount m)) := by
  refine ⟨?_, ?_, ?_, ?_, ?_⟩
  · intro s u e ph c nid t err herr
    rw [herr]
    rfl
  · intro s u e sub c nid t err herr
    rw [herr]
    rfl
  · intro s u e ph nid t err herr
    rw [herr]
    rfl
  · intro s aid c t err herr
    rw [herr]
    rfl
  · intro s u e ph c nid t sponsorId invites1 m hc hsp hdup
    obtain ⟨sp, hsp⟩ := hsp
    unfold register_password_account
    rw [hc]
    dsimp only []
    rw [hsp]
    dsimp only []
    rw [hdup]

/-- Claim C8 witness: registering a duplicate username through a valid
invite fails with DuplicateAccountError and commits no change, even
though the invite was consumed inside the rolled-back transaction. -/
theorem C8_witness :
    register_password_account
        { accounts := [testAccount 0 none .active 0 (some 0) none 0 0],
          invites := [{ code := "inv", sponsor_id := 0, max_uses := 1, uses := 0,
                        expires_at := none, is_active := true, created_at := 0 }],
          events := [] } "" "e" "ph" "inv" 9 10
      = .error (.duplicateAccount "Username or email already exists") ∧
    commit
        { accounts := [testAccount 0 none .active 0 (some 0) none 0 0],
          invites := [{ code := "inv", sponsor_id := 0, max_uses := 1, uses := 0,
                        expires_at := none, is_active := true, created_at := 0 }],
          events := [] }
        (register_password_account
          { accounts := [testAccount 0 none .active 0 (some 0) none 0 0],
            invites := [{ code := "inv", sponsor_id := 0, max_uses := 1, uses := 0,
                          expires_at := none, is_active := true, created_at := 0 }],
            events := [] } "" "e" "ph" "inv" 9 10)
      = { accounts := [testAccount 0 none .active 0 (some 0) none 0 0],
          invites := [{ code := "inv", sponsor_id := 0, max_uses := 1, uses := 0,
                        expires_at := none, is_active := true, created_at := 0 }],
          events := [] } := by
  have h5 := C8_guard_rollback.2.2.2.2
    { accounts := [testAccount 0 none .active 0 (some 0) none 0 0],
      invites := [{ code := "inv", sponsor_id := 0, max_uses := 1, uses := 0,
                    expires_at := none, is_active := true, created_at := 0 }],
      events := [] } "" "e" "ph" "inv" 9 10 0
    [{ code := "inv", sponsor_id := 0, max_uses := 1, uses := 1,
       expires_at := none, is_active := false, created_at := 0 }]
    "Username or email already exists"
    rfl ⟨testAccount 0 none .active 0 (some 0) none 0 0, rfl⟩ rfl
  refine ⟨h5, C8_guard_rollback.1 _ "" "e" "ph" "inv" 9 10 _ h5⟩


/-! ### Success-shape inversion lemmas for the transactional operations -/

theorem consume_ok_shape (invites : List InviteCode) (c : String) (t : Nat)
    (sp : Nat) (invites1 : List InviteCode)
    (h : consumeInviteCode invites c t = .ok (sp, invites1)) :
    invites1 = invites.map (consumeInviteRow (stripStr c)) ∧
    ∃ invite, invites.find? (fun i => decide (i.code = stripStr c)) = some invite ∧
      invite.is_active = true ∧ inviteExpired invite t = false ∧
      invite.uses < invite.max_uses ∧ sp = invite.sponsor_id := by
  unfold consumeInviteCode at h
  dsimp only [] at h
  cases hfind : invites.find? (fun i => decide (i.code = stripStr c)) with
  | none =>
    rw [hfind] at h
    exact Except.noConfusion h
  | some invite =>
    rw [hfind] at h
    dsimp only [] at h
    by_cases hact : invite.is_active = false
    · rw [if_pos hact] at h
      exact Except.noConfusion h
    · rw [if_neg hact] at h
      by_cases hexp : inviteExpired invite t = true
      · rw [if_pos hexp] at h
        exact Except.noConfusion h
      · rw [if_neg hexp] at h
        by_cases hused : invite.max_uses ≤ invite.uses
        · rw [if_pos hused] at h
          exact Except.noConfusion h
        · rw [if_neg hused] at h
          rw [Except.ok.injEq, Prod.mk.injEq] at h
          obtain ⟨hsp, hinv⟩ := h
          subst hsp
          subst hinv
          refine ⟨rfl, invite, rfl, ?_, ?_, by omega, rfl⟩
          · cases hia : invite.is_active with
            | false => exact absurd hia hact
            | true => rfl
          · cases hie : inviteExpired invite t with
            | false => rfl
            | true => exact absurd hie hexp

theorem register_password_ok_shape (s : State) (u e ph c : String) (nid t : Nat)
    (account : Account) (s1 : State)
    (h : register_password_account s u e ph c nid t = .ok (account, s1)) :
    ∃ sponsorId invites1,
      consumeInviteCode s.invites c t = .ok (sponsorId, invites1) ∧
      account.status = .active ∧ account.trust_started_at = some t ∧
      account.recovery_eligible_at = none ∧ account.id = nid ∧
      s1.accounts = s.accounts ++ [account] ∧ s1.invites = invites1 := by
  unfold register_password_account at h
  cases hc : consumeInviteCode s.invites c t with
  | error e =>
    rw [hc] at h
    exact Except.noConfusion h
  | ok pr =>
    obtain ⟨sponsorId, invites1⟩ := pr
    rw [hc] at h
    dsimp only [] at h
    cases hs : ensureActiveSponsor s.accounts sponsorId with
    | error e =>
      rw [hs] at h
      exact Except.noConfusion h
    | ok sponsor =>
      rw [hs] at h
      dsimp only [] at h
      cases hu : ensureUniqueAccount s.accounts u e none with
      | error e =>
        rw [hu] at h
        exact Except.noConfusion h
      | ok u1 =>
        rw [hu] at h
        dsimp only [] at h
        unfold insertAccount at h
        dsimp only [] at h
        by_cases hex : s.accounts.any (fun a => decide (a.id = nid)) = true
        · rw [if_pos hex] at h
          exact Except.noConfusion h
        · rw [if_neg hex] at h
          dsimp only [] at h
          rw [Except.ok.injEq, Prod.mk.injEq] at h
          obtain ⟨hacc, hst⟩ := h
          subst hacc
          subst hst
          exact ⟨sponsorId, invites1, rfl, rfl, rfl, rfl, rfl, rfl, rfl⟩

theorem register_google_ok_shape (s : State) (u e sub c : String) (nid t : Nat)
    (account : Account) (s1 : State)
    (h : register_google_account s u e sub c nid t = .ok (account, s1)) :
    ∃ sponsorId invites1,
      consumeInviteCode s.invites c t = .ok (sponsorId, invites1) ∧
      account.status = .active ∧ account.trust_started_at = some t ∧
      account.recovery_eligible_at = none ∧ account.id = nid ∧
      s1.accounts = s.accounts ++ [account] ∧ s1.invites = invites1 := by
  unfold register_google_account at h
  cases hc : consumeInviteCode s.invites c t with
  | error e =>
    rw [hc] at h
    exact Except.noConfusion h
  | ok pr =>
    obtain ⟨sponsorId, invites1⟩ := pr
    rw [hc] at h
    dsimp only [] at h
    cases hs : ensureActiveSponsor s.accounts sponsorId with
    | error e =>
      rw [hs] at h
      exact Except.noConfusion h
    | ok sponsor =>
      rw [hs] at h
      dsimp only [] at h
      cases hu : ensureUniqueAccount s.accounts u e (some sub) with
      | error e =>
        rw [hu] at h
        exact Except.noConfusion h
      | ok u1 =>
        rw [hu] at h
        dsimp only [] at h
        unfold insertAccount at h
        dsimp only [] at h
        by_cases hex : s.accounts.any (fun a => decide (a.id = nid)) = true
        · rw [if_pos hex] at h
          exact Except.noConfusion h
        · rw [if_neg hex] at h
          dsimp only [] at h
          rw [Except.ok.injEq, Prod.mk.injEq] at h
          obtain ⟨hacc, hst⟩ := h
          subst hacc
          subst hst
          exact ⟨sponsorId, invites1, rfl, rfl, rfl, rfl, rfl, rfl, rfl⟩

theorem create_bootstrap_ok_shape (s : State) (u e ph : String) (nid t : Nat)
    (account : Account) (s1 : State)
    (h : create_bootstrap_account s u e ph nid t = .ok (account, s1)) :
    account.status = .active ∧ account.trust_started_at = some t ∧
    account.recovery_eligible_at = none ∧ account.id = nid ∧
    s1.accounts = s.accounts ++ [account] ∧ s1.invites = s.invites := by
  unfold create_bootstrap_account at h
  cases hu : ensureUniqueAccount s.accounts u e none with
  | error e =>
    rw [hu] at h
    exact Except.noConfusion h
  | ok u1 =>
    rw [hu] at h
    dsimp only [] at h
    unfold insertAccount at h
    dsimp only [] at h
    by_cases hex : s.accounts.any (fun a => decide (a.id = nid)) = true
    · rw [if_pos hex] at h
      exact Except.noConfusion h
    · rw [if_neg hex] at h
      dsimp only [] at h
      rw [Except.ok.injEq, Prod.mk.injEq] at h
      obtain ⟨hacc, hst⟩ := h
      subst hacc
      subst hst
      exact ⟨rfl, rfl, rfl, rfl, rfl, rfl⟩

theorem revouch_ok_shape (s : State) (accountId : Nat) (inviteCode : String) (now : Nat)
    (acct : Account) (s1 : State)
    (h : revouch_account s accountId inviteCode now = .ok (acct, s1)) :
    ∃ sponsorId invites1 account,
      findAccount s.accounts accountId = some account ∧
      account.status = .revouch_required ∧
      consumeInviteCode s.invites inviteCode now = .ok (sponsorId, invites1) ∧
      s1.accounts = s.accounts.map (fun a =>
        if a.id = accountId then
          { a with sponsor_id := some sponsorId, status := .active,
                   trust_started_at := some now, recovery_eligible_at := none,
                   updated_at := now }
        else a) ∧
      s1.invites = invites1 := by
  unfold revouch_account at h
  cases hfa : findAccount s.accounts accountId with
  | none =>
    rw [hfa] at h
    exact Except.noConfusion h
  | some account =>
    rw [hfa] at h
    dsimp only [] at h
    by_cases hban : account.status = .banned
    · rw [if_pos hban] at h
      exact Except.noConfusion h
    · rw [if_neg hban] at h
      by_cases hrev : account.status = .revouch_required
      · rw [if_neg (not_not_intro hrev)] at h
        cases hc : consumeInviteCode s.invites inviteCode now with
        | error e =>
          rw [hc] at h
          exact Except.noConfusion h
        | ok pr =>
          obtain ⟨sponsorId, invites1⟩ := pr
          rw [hc] at h
          dsimp only [] at h
          by_cases hself : sponsorId = accountId
          · rw [if_pos hself] at h
            exact Except.noConfusion h
          · rw [if_neg hself] at h
            cases hs : ensureActiveSponsor s.accounts sponsorId with
            | error e =>
              rw [hs] at h
              exact Except.noConfusion h
            | ok sponsor =>
              rw [hs] at h
              dsimp only [] at h
              cases hv : validateRecoverySponsor account sponsor now with
              | error e =>
                rw [hv] at h
                exact Except.noConfusion h
              | ok u1 =>
                rw [hv] at h
                dsimp only [] at h
                cases hfa2 : findAccount (s.accounts.map (fun a =>
                    if a.id = accountId then
                      { a with sponsor_id := some sponsorId, status := .active,
                               trust_started_at := some now, recovery_eligible_at := none,
                               updated_at := now }
                    else a)) accountId with
                | none =>
                  rw [hfa2] at h
                  exact Except.noConfusion h
                | some updatedRow =>
                  rw [hfa2] at h
                  dsimp only [] at h
                  rw [Except.ok.injEq, Prod.mk.injEq] at h
                  obtain ⟨hrow, hstate⟩ := h
                  subst hrow
                  subst hstate
                  exact ⟨sponsorId, invites1, account, rfl, hrev, rfl, rfl, rfl⟩
      · rw [if_pos hrev] at h
        exact Except.noConfusion h

theorem create_invite_ok_shape (s : State) (accountId maxUses : Nat)
    (expiresInDays : Option Nat) (newCode : String) (now : Nat)
    (inv : InviteCode) (s1 : State)
    (h : create_invite s accountId maxUses expiresInDays newCode now = .ok (inv, s1)) :
    inv.uses = 0 ∧ inv.max_uses = maxUses ∧ inv.is_active = true ∧
    s1.accounts = s.accounts ∧ s1.invites = s.invites ++ [inv] := by
  unfold create_invite at h
  cases hfa : findAccount s.accounts accountId with
  | none =>
    rw [hfa] at h
    exact Except.noConfusion h
  | some account =>
    rw [hfa] at h
    dsimp only [] at h
    by_cases hact : account.status ≠ .active
    · rw [if_pos hact] at h
      exact Except.noConfusion h
    · rw [if_neg hact] at h
      by_cases hdup : s.invites.any (fun i => decide (i.code = newCode)) = true
      · rw [if_pos hdup] at h
        exact Except.noConfusion h
      · rw [if_neg hdup] at h
        rw [Except.ok.injEq, Prod.mk.injEq] at h
        obtain ⟨hinv, hst⟩ := h
        subst hinv
        subst hst
        exact ⟨rfl, rfl, rfl, rfl, rfl⟩

theorem banned_map (l : List Account) (f : Account → Account)
    (hf : ∀ a ∈ l, bannedCleanRow a →
      bannedCleanRow (f a) ∧ (a.status = .banned → (f a).status = .banned))
    (hl : ∀ a ∈ l, bannedCleanRow a) :
    (∀ b ∈ l.map f, bannedCleanRow b) ∧
    (∀ i, (l.get? i).map (fun a => a.status) = some .banned →
      ((l.map f).get? i).map (fun a => a.status) = some .banned) := by
  constructor
  · intro b hb
    rcases List.mem_map.mp hb with ⟨a, ha, rfl⟩
    exact (hf a ha (hl a ha)).1
  · intro i hi
    cases hgi : l.get? i with
    | none =>
      rw [hgi] at hi
      exact Option.noConfusion hi
    | some a =>
      rw [hgi, Option.map_some'] at hi
      injection hi with hi
      have hmem : a ∈ l := List.get?_mem hgi
      rw [List.get?_map, hgi, Option.map_some', Option.map_some']
      rw [(hf a hmem (hl a hmem)).2 hi]

theorem banned_append (l rest : List Account)
    (hl : ∀ a ∈ l, bannedCleanRow a) (hrest : ∀ b ∈ rest, bannedCleanRow b) :
    (∀ b ∈ l ++ rest, bannedCleanRow b) ∧
    (∀ i, (l.get? i).map (fun a => a.status) = some .banned →
      ((l ++ rest).get? i).map (fun a => a.status) = some .banned) := by
  constructor
  · intro b hb
    rcases List.mem_append.mp hb with hb | hb
    · exact hl b hb
    · exact hrest b hb
  · intro i hi
    cases hgi : l.get? i with
    | none =>
      rw [hgi] at hi
      exact Option.noConfusion hi
    | some a =>
      have hlt : i < l.length := by
        by_contra hge
        rw [List.get?_eq_none.mpr (by omega)] at hgi
        exact Option.noConfusion hgi
      rw [List.get?_append hlt, hgi]
      rw [hgi] at hi
      exact hi

theorem touchRow_banned (accountId now : Nat) (a : Account) (hcl : bannedCleanRow a) :
    bannedCleanRow ((fun a =>
      if a.id = accountId then { a with last_active_at := now, updated_at := now }
      else a) a) ∧ (a.status = .banned → ((fun a =>
      if a.id = accountId then { a with last_active_at := now, updated_at := now }
      else a) a).status = .banned) := by
  dsimp only []
  by_cases h : a.id = accountId
  · rw [if_pos h]
    exact ⟨fun hb => hcl hb, fun hb => hb⟩
  · rw [if_neg h]
    exact ⟨hcl, fun hb => hb⟩

theorem sweepRow_banned (aff : List Nat) (now : Nat) (a : Account) (hcl : bannedCleanRow a) :
    bannedCleanRow (sweepRow aff now a) ∧
    (a.status = .banned → (sweepRow aff now a).status = .banned) := by
  unfold sweepRow
  by_cases h : a.id ∈ aff ∧ a.status = .active
  · rw [if_pos h]
    exact ⟨fun hb => AccountStatus.noConfusion hb, fun hb => by
      rw [hb] at h
      exact AccountStatus.noConfusion h.2⟩
  · rw [if_neg h]
    exact ⟨hcl, fun hb => hb⟩

theorem convictRows_banned (rootId p now : Nat) (ds : List Nat) (recAt : Nat)
    (a : Account) (hcl : bannedCleanRow a) :
    (bannedCleanRow (demeritRow p now (downstreamRow ds recAt now (banRootRow rootId now a))) ∧
      (a.status = .banned →
        (demeritRow p now (downstreamRow ds recAt now (banRootRow rootId now a))).status = .banned)) ∧
    (bannedCleanRow (downstreamRow ds recAt now (banRootRow rootId now a)) ∧
      (a.status = .banned →
        (downstreamRow ds recAt now (banRootRow rootId now a)).status = .banned)) := by
  have hmain : bannedCleanRow (downstreamRow ds recAt now (banRootRow rootId now a)) ∧
      (a.status = .banned →
        (downstreamRow ds recAt now (banRootRow rootId now a)).status = .banned) := by
    by_cases h1 : a.id = rootId
    · unfold banRootRow downstreamRow
      rw [if_pos h1]
      rw [if_neg]
      · exact ⟨fun _ => ⟨rfl, rfl⟩, fun _ => rfl⟩
      · rintro ⟨-, hcontra⟩
        exact hcontra rfl
    · unfold banRootRow downstreamRow
      rw [if_neg h1]
      by_cases h2 : a.id ∈ ds ∧ a.status ≠ .banned
      · rw [if_pos h2]
        exact ⟨fun hb => AccountStatus.noConfusion hb, fun hb => absurd hb h2.2⟩
      · rw [if_neg h2]
        exact ⟨hcl, fun hb => hb⟩
  refine ⟨?_, hmain⟩
  unfold demeritRow
  by_cases h3 : (downstreamRow ds recAt now (banRootRow rootId now a)).id = p
  · rw [if_pos h3]
    exact ⟨fun hb => hmain.1 hb, fun hb => hmain.2 hb⟩
  · rw [if_neg h3]
    exact hmain

/-- Claim C5: banned is terminal and clean.  Every operation preserves
the invariant that a banned account has both trust timestamps null,
and a row that is banned before any operation is still banned at the
same position afterwards — no operation ever takes a banned account
back to active or revouch_required. -/
theorem C5_banned_terminal (s : State) (op : Op)
    (hids : (s.accounts.map (fun a => a.id)).Nodup)
    (hclean : bannedClean s) :
    bannedClean (applyOp s op) ∧
    ∀ i, (s.accounts.get? i).map (fun a => a.status) = some .banned →
      ((applyOp s op).accounts.get? i).map (fun a => a.status) = some .banned := by
  cases op with
  | createBootstrap u e ph nid t =>
    dsimp only [applyOp]
    cases hr : create_bootstrap_account s u e ph nid t with
    | error err =>
      dsimp only [commit]
      exact ⟨hclean, fun i hi => hi⟩
    | ok pr =>
      obtain ⟨account, s1⟩ := pr
      dsimp only [commit]
      obtain ⟨hst, -, -, -, hacc, -⟩ := create_bootstrap_ok_shape s u e ph nid t account s1 hr
      have hres := banned_append s.accounts [account] hclean (fun b hb => by
        rw [List.mem_singleton.mp hb]
        intro hbst
        rw [hst] at hbst
        exact AccountStatus.noConfusion hbst)
      constructor
      · intro b hb
        rw [hacc] at hb
        exact hres.1 b hb
      · intro i hi
        rw [hacc]
        exact hres.2 i hi
  | registerPassword u e ph c nid t =>
    dsimp only [applyOp]
    cases hr : register_password_account s u e ph c nid t with
    | error err =>
      dsimp only [commit]
      exact ⟨hclean, fun i hi => hi⟩
    | ok pr =>
      obtain ⟨account, s1⟩ := pr
      dsimp only [commit]
      obtain ⟨-, -, -, hst, -, -, -, hacc, -⟩ :=
        register_password_ok_shape s u e ph c nid t account s1 hr
      have hres := banned_append s.accounts [account] hclean (fun b hb => by
        rw [List.mem_singleton.mp hb]
        intro hbst
        rw [hst] at hbst
        exact AccountStatus.noConfusion hbst)
      constructor
      · intro b hb
        rw [hacc] at hb
        exact hres.1 b hb
      · intro i hi
        rw [hacc]
        exact hres.2 i hi
  | registerGoogle u e sub c nid t =>
    dsimp only [applyOp]
    cases hr : register_google_account s u e sub c nid t with
    | error err =>
      dsimp only [commit]
      exact ⟨hclean, fun i hi => hi⟩
    | ok pr =>
      obtain ⟨account, s1⟩ := pr
      dsimp only [commit]
      obtain ⟨-, -, -, hst, -, -, -, hacc, -⟩ :=
        register_google_ok_shape s u e sub c nid t account s1 hr
      have hres := banned_append s.accounts [account] hclean (fun b hb => by
        rw [List.mem_singleton.mp hb]
        intro hbst
        rw [hst] at hbst
        exact AccountStatus.noConfusion hbst)
      constructor
      · intro b hb
        rw [hacc] at hb
        exact hres.1 b hb
      · intro i hi
        rw [hacc]
        exact hres.2 i hi
  | createInvite aid m d c t =>
    dsimp only [applyOp]
    cases hr : create_invite s aid m d c t with
    | error err =>
      dsimp only [commit]
      exact ⟨hclean, fun i hi => hi⟩
    | ok pr =>
      obtain ⟨inv, s1⟩ := pr
      dsimp only [commit]
      obtain ⟨-, -, -, hacc, -⟩ := create_invite_ok_shape s aid m d c t inv s1 hr
      constructor
      · intro b hb
        rw [hacc] at hb
        exact hclean b hb
      · intro i hi
        rw [hacc]
        exact hi
  | revouch aid c t =>
    dsimp only [applyOp]
    cases hr : revouch_account s aid c t with
    | error err =>
      dsimp only [commit]
      exact ⟨hclean, fun i hi => hi⟩
    | ok pr =>
      obtain ⟨acct, s1⟩ := pr
      dsimp only [commit]
      obtain ⟨sponsorId, invites1, account, hfa, hrev, -, hacc, -⟩ :=
        revouch_ok_shape s aid c t acct s1 hr
      have hfmem := findAccount_mem s.accounts aid account hfa
      have hres := banned_map s.accounts
        (fun a =>
          if a.id = aid then
            { a with
              sponsor_id := some sponsorId
              status := AccountStatus.active
              trust_started_at := some t
              recovery_eligible_at := none
              updated_at := t }
          else a)
        (fun a ha hcl => by
          by_cases h : a.id = aid
          · simp only [if_pos h]
            constructor
            · intro hb
              exact AccountStatus.noConfusion hb
            · intro hab
              have haacc : a = account := by
                refine mem_id_unique s.accounts hids account a hfmem.1 ha ?_
                rw [h, hfmem.2]
              rw [haacc, hrev] at hab
              exact AccountStatus.noConfusion hab
          · simp only [if_neg h]
            exact ⟨hcl, fun hb => hb⟩) hclean
      constructor
      · intro b hb
        rw [hacc] at hb
        exact hres.1 b hb
      · intro i hi
        rw [hacc]
        exact hres.2 i hi
  | convict aid reason t =>
    dsimp only [applyOp]
    cases hr : convict_and_ban_tree s aid reason t with
    | error err =>
      dsimp only [commit]
      exact ⟨hclean, fun i hi => hi⟩
    | ok pr =>
      obtain ⟨res, s1⟩ := pr
      cases hf : findAccount s.accounts aid with
      | none =>
        unfold convict_and_ban_tree at hr
        rw [hf] at hr
        exact Except.noConfusion hr
      | some rootRow =>
        rw [convict_ok_eq s aid reason t rootRow hf] at hr
        rw [Except.ok.injEq, Prod.mk.injEq] at hr
        obtain ⟨-, hstate⟩ := hr
        subst hstate
        cases hsp : rootRow.sponsor_id with
        | none =>
          dsimp only [commit]
          constructor
          · intro b hb
            simp only [List.map_map] at hb
            rcases List.mem_map.mp hb with ⟨a, ha, rfl⟩
            exact ((convictRows_banned aid 0 t _ _ a (hclean a ha)).2).1
          · intro i hi
            simp only [List.map_map]
            refine (banned_map s.accounts _ (fun a ha hcl =>
              (convictRows_banned aid 0 t _ _ a hcl).2) hclean).2 i hi
        | some q =>
          dsimp only [commit]
          constructor
          · intro b hb
            simp only [List.map_map] at hb
            rcases List.mem_map.mp hb with ⟨a, ha, rfl⟩
            exact ((convictRows_banned aid q t _ _ a (hclean a ha)).1).1
          · intro i hi
            simp only [List.map_map]
            refine (banned_map s.accounts _ (fun a ha hcl =>
              (convictRows_banned aid q t _ _ a hcl).1) hclean).2 i hi
  | sweep d t =>
    dsimp only [applyOp, expire_inactive_sponsor_trees]
    have hres := banned_map s.accounts
      (sweepRow (affectedIds s.accounts (inactiveRootIds s.accounts (t - d * 24))) t)
      (fun a ha hcl =>
        sweepRow_banned (affectedIds s.accounts (inactiveRootIds s.accounts (t - d * 24)))
          t a hcl) hclean
    exact ⟨fun b hb => hres.1 b hb, fun i hi => hres.2 i hi⟩
  | touch aid t =>
    dsimp only [applyOp, touch_last_active]
    have hres := banned_map s.accounts
      (fun a => if a.id = aid then { a with last_active_at := t, updated_at := t } else a)
      (fun a ha hcl => touchRow_banned aid t a hcl) hclean
    exact ⟨fun b hb => hres.1 b hb, fun i hi => hres.2 i hi⟩

/-- Witness for C5 on a concrete one-account state holding a clean
banned row, under a touch operation. -/
theorem C5_witness :
    bannedClean (applyOp bannedOneState (Op.touch 1 5)) ∧
    ∀ i, (bannedOneState.accounts.get? i).map (fun a => a.status) = some .banned →
      ((applyOp bannedOneState (Op.touch 1 5)).accounts.get? i).map
        (fun a => a.status) = some .banned :=
  C5_banned_terminal bannedOneState (Op.touch 1 5) (by decide)
    (by unfold bannedClean bannedCleanRow; decide)


/-! ### C3 and C6: invite capacity and activity invariants -/

theorem consumeInviteRow_code (n : String) (i : InviteCode) :
    (consumeInviteRow n i).code = i.code := by
  unfold consumeInviteRow
  by_cases h : i.code = n
  · rw [if_pos h]
  · rw [if_neg h]

theorem consumeInviteRow_of_ne (n : String) (i : InviteCode) (h : i.code ≠ n) :
    consumeInviteRow n i = i := by
  unfold consumeInviteRow
  rw [if_neg h]

theorem consumeInviteRow_exh (n : String) (i : InviteCode)
    (hi : i.max_uses ≤ i.uses → i.is_active = false) :
    (consumeInviteRow n i).max_uses ≤ (consumeInviteRow n i).uses →
      (consumeInviteRow n i).is_active = false := by
  unfold consumeInviteRow
  by_cases h : i.code = n
  · rw [if_pos h]
    intro hle
    dsimp only [] at hle ⊢
    rw [if_pos hle]
  · rw [if_neg h]
    exact hi

theorem deactivateInviteRow_code (ids : List Nat) (i : InviteCode) :
    (deactivateInviteRow ids i).code = i.code := by
  unfold deactivateInviteRow
  by_cases h : i.sponsor_id ∈ ids
  · rw [if_pos h]
  · rw [if_neg h]

theorem deactivateInviteRow_uses (ids : List Nat) (i : InviteCode) :
    (deactivateInviteRow ids i).uses = i.uses ∧
    (deactivateInviteRow ids i).max_uses = i.max_uses := by
  unfold deactivateInviteRow
  by_cases h : i.sponsor_id ∈ ids
  · rw [if_pos h]
    exact ⟨rfl, rfl⟩
  · rw [if_neg h]
    exact ⟨rfl, rfl⟩

theorem deactivateInviteRow_exh (ids : List Nat) (i : InviteCode)
    (hi : i.max_uses ≤ i.uses → i.is_active = false) :
    (deactivateInviteRow ids i).max_uses ≤ (deactivateInviteRow ids i).uses →
      (deactivateInviteRow ids i).is_active = false := by
  unfold deactivateInviteRow
  by_cases h : i.sponsor_id ∈ ids
  · rw [if_pos h]
    intro hle
    rfl
  · rw [if_neg h]
    exact hi

theorem consume_cap (invites : List InviteCode) (c : String) (t sp : Nat)
    (invites1 : List InviteCode)
    (hnd : (invites.map (fun i => i.code)).Nodup)
    (hcap : ∀ i ∈ invites, i.uses ≤ i.max_uses)
    (h : consumeInviteCode invites c t = .ok (sp, invites1)) :
    (invites1.map (fun i => i.code)).Nodup ∧ ∀ i ∈ invites1, i.uses ≤ i.max_uses := by
  obtain ⟨heq, invite, hfind, hact, hexp, hlt, -⟩ := consume_ok_shape invites c t sp invites1 h
  have hmemf : invite ∈ invites := List.mem_of_find?_eq_some hfind
  have hcodef : invite.code = stripStr c := by
    have hp := List.find?_some hfind
    exact of_decide_eq_true hp
  constructor
  · have hmc : List.map ((fun i => i.code) ∘ consumeInviteRow (stripStr c)) invites
        = List.map (fun i => i.code) invites := by
      refine map_congr_of_forall _ _ _ ?_
      intro i _
      exact consumeInviteRow_code (stripStr c) i
    rw [heq, List.map_map, hmc]
    exact hnd
  · intro i hi
    rw [heq] at hi
    rcases List.mem_map.mp hi with ⟨j, hj, rfl⟩
    unfold consumeInviteRow
    by_cases hc : j.code = stripStr c
    · rw [if_pos hc]
      have hji : j = invite := by
        refine List.inj_on_of_nodup_map hnd hj hmemf ?_
        rw [hc, hcodef]
      dsimp only []
      rw [hji]
      exact hlt
    · rw [if_neg hc]
      exact hcap j hj

theorem consume_exh (invites : List InviteCode) (c : String) (t sp : Nat)
    (invites1 : List InviteCode)
    (hexh : ∀ i ∈ invites, i.max_uses ≤ i.uses → i.is_active = false)
    (h : consumeInviteCode invites c t = .ok (sp, invites1)) :
    ∀ i ∈ invites1, i.max_uses ≤ i.uses → i.is_active = false := by
  obtain ⟨heq, -⟩ := consume_ok_shape invites c t sp invites1 h
  intro i hi
  rw [heq] at hi
  rcases List.mem_map.mp hi with ⟨j, hj, rfl⟩
  exact consumeInviteRow_exh (stripStr c) j (hexh j hj)

theorem consume_expired (invites : List InviteCode) (c : String) (t : Nat)
    (invite : InviteCode)
    (hfind : invites.find? (fun i => decide (i.code = stripStr c)) = some invite)
    (hexp : inviteExpired invite t = true) :
    ∃ msg, consumeInviteCode invites c t = .error (.invalidInviteCode msg) := by
  unfold consumeInviteCode
  dsimp only []
  rw [hfind]
  dsimp only []
  by_cases hact : invite.is_active = false
  · rw [if_pos hact]
    exact ⟨"Invite code is inactive", rfl⟩
  · rw [if_neg hact, if_pos hexp]
    exact ⟨"Invite code has expired", rfl⟩

theorem consume_exhausted (invites : List InviteCode) (c : String) (t : Nat)
    (invite : InviteCode)
    (hfind : invites.find? (fun i => decide (i.code = stripStr c)) = some invite)
    (hfull : invite.max_uses ≤ invite.uses) :
    ∃ msg, consumeInviteCode invites c t = .error (.invalidInviteCode msg) := by
  unfold consumeInviteCode
  dsimp only []
  rw [hfind]
  dsimp only []
  by_cases hact : invite.is_active = false
  · rw [if_pos hact]
    exact ⟨"Invite code is inactive", rfl⟩
  · rw [if_neg hact]
    by_cases hexp : inviteExpired invite t = true
    · rw [if_pos hexp]
      exact ⟨"Invite code has expired", rfl⟩
    · rw [if_neg hexp, if_pos hfull]
      exact ⟨"Invite code is fully used", rfl⟩

theorem register_password_consume_error (s : State) (u e ph c : String) (nid t : Nat)
    (err : ServiceErr)
    (hc : consumeInviteCode s.invites c t = .error err) :
    applyOp s (Op.registerPassword u e ph c nid t) = s := by
  dsimp only [applyOp]
  unfold register_password_account
  rw [hc]
  rfl

theorem create_invite_ok_code (s : State) (accountId maxUses : Nat)
    (expiresInDays : Option Nat) (newCode : String) (now : Nat)
    (inv : InviteCode) (s1 : State)
    (h : create_invite s accountId maxUses expiresInDays newCode now = .ok (inv, s1)) :
    inv.code = newCode ∧
    s.invites.any (fun i => decide (i.code = newCode)) = false := by
  unfold create_invite at h
  cases hfa : findAccount s.accounts accountId with
  | none =>
    rw [hfa] at h
    exact Except.noConfusion h
  | some account =>
    rw [hfa] at h
    dsimp only [] at h
    by_cases hact : account.status ≠ .active
    · rw [if_pos hact] at h
      exact Except.noConfusion h
    · rw [if_neg hact] at h
      by_cases hdup : s.invites.any (fun i => decide (i.code = newCode)) = true
      · rw [if_pos hdup] at h
        exact Except.noConfusion h
      · rw [if_neg hdup] at h
        rw [Except.ok.injEq, Prod.mk.injEq] at h
        obtain ⟨h1, -⟩ := h
        constructor
        · rw [← h1]
        · exact Bool.eq_false_iff.mpr hdup

theorem convict_ok_invites (s : State) (aid : Nat) (r : String) (t : Nat)
    (res : Nat × List Nat × Option Nat) (s1 : State)
    (h : convict_and_ban_tree s aid r t = .ok (res, s1)) :
    s1.invites = s.invites.map (deactivateInviteRow (referralTree s.accounts aid)) := by
  cases hf : findAccount s.accounts aid with
  | none =>
    unfold convict_and_ban_tree at h
    rw [hf] at h
    exact Except.noConfusion h
  | some root =>
    rw [convict_ok_eq s aid r t root hf] at h
    injection h with h
    rw [Prod.mk.injEq] at h
    obtain ⟨-, hs⟩ := h
    rw [← hs]

theorem sweep_invites (s : State) (d t : Nat) :
    ((expire_inactive_sponsor_trees s d t).2).invites = s.invites := rfl

theorem touch_invites (s : State) (aid t : Nat) :
    (touch_last_active s aid t).invites = s.invites := rfl

theorem inviteCap_applyOp (s : State) (op : Op) (h : inviteCap s) :
    inviteCap (applyOp s op) := by
  obtain ⟨hnd, hcap⟩ := h
  cases op with
  | createBootstrap u e ph nid t =>
    dsimp only [applyOp]
    cases hr : create_bootstrap_account s u e ph nid t with
    | error err => exact ⟨hnd, hcap⟩
    | ok pr =>
      obtain ⟨account, s1⟩ := pr
      dsimp only [commit]
      obtain ⟨-, -, -, -, -, hinv⟩ := create_bootstrap_ok_shape s u e ph nid t account s1 hr
      unfold inviteCap
      rw [hinv]
      exact ⟨hnd, hcap⟩
  | registerPassword u e ph c nid t =>
    dsimp only [applyOp]
    cases hr : register_password_account s u e ph c nid t with
    | error err => exact ⟨hnd, hcap⟩
    | ok pr =>
      obtain ⟨account, s1⟩ := pr
      dsimp only [commit]
      obtain ⟨sp, invites1, hc, -, -, -, -, -, hinv⟩ :=
        register_password_ok_shape s u e ph c nid t account s1 hr
      unfold inviteCap
      rw [hinv]
      exact consume_cap s.invites c t sp invites1 hnd hcap hc
  | registerGoogle u e sub c nid t =>
    dsimp only [applyOp]
    cases hr : register_google_account s u e sub c nid t with
    | error err => exact ⟨hnd, hcap⟩
    | ok pr =>
      obtain ⟨account, s1⟩ := pr
      dsimp only [commit]
      obtain ⟨sp, invites1, hc, -, -, -, -, -, hinv⟩ :=
        register_google_ok_shape s u e sub c nid t account s1 hr
      unfold inviteCap
      rw [hinv]
      exact consume_cap s.invites c t sp invites1 hnd hcap hc
  | createInvite aid m d code t =>
    dsimp only [applyOp]
    cases hr : create_invite s aid m d code t with
    | error err => exact ⟨hnd, hcap⟩
    | ok pr =>
      obtain ⟨inv, s1⟩ := pr
      dsimp only [commit]
      obtain ⟨huse, hmax, -, -, hinv⟩ := create_invite_ok_shape s aid m d code t inv s1 hr
      obtain ⟨hcode, hnodup⟩ := create_invite_ok_code s aid m d code t inv s1 hr
      have hfresh : ∀ j ∈ s.invites, j.code ≠ code := by
        intro j hj
        have hja := List.any_eq_false.mp hnodup j hj
        intro hje
        exact hja (decide_eq_true hje)
      unfold inviteCap
      rw [hinv]
      constructor
      · rw [List.map_append]
        refine List.nodup_append.mpr ⟨hnd, List.nodup_singleton _, ?_⟩
        intro x hx1 hx2
        rcases List.mem_map.mp hx1 with ⟨j, hj, rfl⟩
        rcases List.mem_map.mp hx2 with ⟨j2, hj2, hjx⟩
        rw [List.mem_singleton] at hj2
        rw [hj2] at hjx
        rw [hjx] at hcode
        exact hfresh j hj hcode
      · intro i hi
        rcases List.mem_append.mp hi with h1 | h1
        · exact hcap i h1
        · rw [List.mem_singleton] at h1
          rw [h1, huse]
          exact Nat.zero_le _
  | revouch aid c t =>
    dsimp only [applyOp]
    cases hr : revouch_account s aid c t with
    | error err => exact ⟨hnd, hcap⟩
    | ok pr =>
      obtain ⟨acct, s1⟩ := pr
      dsimp only [commit]
      obtain ⟨sp, invites1, -, -, -, hc, -, hinv⟩ := revouch_ok_shape s aid c t acct s1 hr
      unfold inviteCap
      rw [hinv]
      exact consume_cap s.invites c t sp invites1 hnd hcap hc
  | convict aid r t =>
    dsimp only [applyOp]
    cases hr : convict_and_ban_tree s aid r t with
    | error err => exact ⟨hnd, hcap⟩
    | ok pr =>
      obtain ⟨res, s1⟩ := pr
      dsimp only [commit]
      have hinv := convict_ok_invites s aid r t res s1 hr
      unfold inviteCap
      rw [hinv]
      constructor
      · rw [List.map_map]
        have hmc : List.map
            ((fun i => i.code) ∘ deactivateInviteRow (referralTree s.accounts aid)) s.invites
            = List.map (fun i => i.code) s.invites := by
          refine map_congr_of_forall _ _ _ ?_
          intro i _
          exact deactivateInviteRow_code _ i
        rw [hmc]
        exact hnd
      · intro i hi
        rcases List.mem_map.mp hi with ⟨j, hj, rfl⟩
        obtain ⟨hu, hm⟩ := deactivateInviteRow_uses (referralTree s.accounts aid) j
        rw [hu, hm]
        exact hcap j hj
  | sweep d t =>
    dsimp only [applyOp]
    unfold inviteCap
    rw [sweep_invites]
    exact ⟨hnd, hcap⟩
  | touch aid t =>
    dsimp only [applyOp]
    unfold inviteCap
    rw [touch_invites]
    exact ⟨hnd, hcap⟩

theorem inviteCap_applyOps (ops : List Op) (s : State) (h : inviteCap s) :
    inviteCap (applyOps s ops) := by
  induction ops generalizing s with
  | nil => exact h
  | cons op tl ih => exact ih (applyOp s op) (inviteCap_applyOp s op h)

theorem exhInactive_applyOp (s : State) (op : Op) (hpos : opMaxUsesPos op)
    (h : ∀ i ∈ s.invites, i.max_uses ≤ i.uses → i.is_active = false) :
    ∀ i ∈ (applyOp s op).invites, i.max_uses ≤ i.uses → i.is_active = false := by
  cases op with
  | createBootstrap u e ph nid t =>
    dsimp only [applyOp]
    cases hr : create_bootstrap_account s u e ph nid t with
    | error err => exact h
    | ok pr =>
      obtain ⟨account, s1⟩ := pr
      dsimp only [commit]
      obtain ⟨-, -, -, -, -, hinv⟩ := create_bootstrap_ok_shape s u e ph nid t account s1 hr
      rw [hinv]
      exact h
  | registerPassword u e ph c nid t =>
    dsimp only [applyOp]
    cases hr : register_password_account s u e ph c nid t with
    | error err => exact h
    | ok pr =>
      obtain ⟨account, s1⟩ := pr
      dsimp only [commit]
      obtain ⟨sp, invites1, hc, -, -, -, -, -, hinv⟩ :=
        register_password_ok_shape s u e ph c nid t account s1 hr
      rw [hinv]
      exact consume_exh s.invites c t sp invites1 h hc
  | registerGoogle u e sub c nid t =>
    dsimp only [applyOp]
    cases hr : register_google_account s u e sub c nid t with
    | error err => exact h
    | ok pr =>
      obtain ⟨account, s1⟩ := pr
      dsimp only [commit]
      obtain ⟨sp, invites1, hc, -, -, -, -, -, hinv⟩ :=
        register_google_ok_shape s u e sub c nid t account s1 hr
      rw [hinv]
      exact consume_exh s.invites c t sp invites1 h hc
  | createInvite aid m d code t =>
    dsimp only [applyOp]
    cases hr : create_invite s aid m d code t with
    | error err => exact h
    | ok pr =>
      obtain ⟨inv, s1⟩ := pr
      dsimp only [commit]
      obtain ⟨huse, hmax, -, -, hinv⟩ := create_invite_ok_shape s aid m d code t inv s1 hr
      rw [hinv]
      intro i hi
      rcases List.mem_append.mp hi with h1 | h1
      · exact h i h1
      · rw [List.mem_singleton] at h1
        rw [h1]
        intro hle
        rw [hmax, huse] at hle
        exact absurd (le_trans hpos hle) (Nat.not_succ_le_zero 0)
  | revouch aid c t =>
    dsimp only [applyOp]
    cases hr : revouch_account s aid c t with
    | error err => exact h
    | ok pr =>
      obtain ⟨acct, s1⟩ := pr
      dsimp only [commit]
      obtain ⟨sp, invites1, -, -, -, hc, -, hinv⟩ := revouch_ok_shape s aid c t acct s1 hr
      rw [hinv]
      exact consume_exh s.invites c t sp invites1 h hc
  | convict aid r t =>
    dsimp only [applyOp]
    cases hr : convict_and_ban_tree s aid r t with
    | error err => exact h
    | ok pr =>
      obtain ⟨res, s1⟩ := pr
      dsimp only [commit]
      rw [convict_ok_invites s aid r t res s1 hr]
      intro i hi
      rcases List.mem_map.mp hi with ⟨j, hj, rfl⟩
      exact deactivateInviteRow_exh _ j (h j hj)
  | sweep d t =>
    dsimp only [applyOp]
    rw [sweep_invites]
    exact h
  | touch aid t =>
    dsimp only [applyOp]
    rw [touch_invites]
    exact h

theorem exhInactive_applyOps (ops : List Op) :
    ∀ s : State, (∀ op ∈ ops, opMaxUsesPos op) →
    (∀ i ∈ s.invites, i.max_uses ≤ i.uses → i.is_active = false) →
    ∀ i ∈ (applyOps s ops).invites, i.max_uses ≤ i.uses → i.is_active = false := by
  induction ops with
  | nil => exact fun s _ h => h
  | cons op tl ih =>
    intro s hpos h
    exact ih (applyOp s op) (fun o ho => hpos o (List.mem_cons_of_mem op ho))
      (exhInactive_applyOp s op (hpos op (List.mem_cons_self op tl)) h)

theorem inviteCap_init : inviteCap initState :=
  ⟨List.nodup_nil, fun i hi => absurd hi (List.not_mem_nil i)⟩

/-- Claim C6: uses never exceeds max_uses.  From the empty ledger,
after any operation sequence: (a) every invite row satisfies
uses ≤ max_uses; (b) a consumption attempt on a code whose uses has
reached max_uses fails with InvalidInviteCodeError, and a registration
through that code leaves the ledger untouched; (c) a successful
consumption finds a row with uses < max_uses, increments exactly that
row's uses by exactly 1, flips its is_active to false precisely when
the increment reaches max_uses, and leaves every other row unchanged. -/
theorem C6_invite_cap (ops : List Op) (c : String) (t : Nat) :
    (∀ i ∈ (applyOps initState ops).invites, i.uses ≤ i.max_uses) ∧
    (∀ invite, (applyOps initState ops).invites.find?
        (fun i => decide (i.code = stripStr c)) = some invite →
      invite.max_uses ≤ invite.uses →
      (∃ msg, consumeInviteCode (applyOps initState ops).invites c t =
        .error (.invalidInviteCode msg)) ∧
      ∀ u e ph nid, applyOp (applyOps initState ops) (Op.registerPassword u e ph c nid t) =
        applyOps initState ops) ∧
    (∀ sp invites1,
      consumeInviteCode (applyOps initState ops).invites c t = .ok (sp, invites1) →
      ∀ k i0, (applyOps initState ops).invites.get? k = some i0 →
        ∃ i1, invites1.get? k = some i1 ∧
          (i0.code ≠ stripStr c → i1 = i0) ∧
          (i0.code = stripStr c → i0.uses < i0.max_uses ∧ i1.uses = i0.uses + 1 ∧
            i1.max_uses = i0.max_uses ∧
            (i1.is_active = false ↔ i0.max_uses ≤ i0.uses + 1))) := by
  obtain ⟨hnd, hcap⟩ := inviteCap_applyOps ops initState inviteCap_init
  refine ⟨hcap, ?_, ?_⟩
  · intro invite hfind hfull
    constructor
    · exact consume_exhausted _ c t invite hfind hfull
    · intro u e ph nid
      obtain ⟨msg, herr⟩ := consume_exhausted _ c t invite hfind hfull
      exact register_password_consume_error _ u e ph c nid t _ herr
  · intro sp invites1 hok k i0 hget
    obtain ⟨heq, invite, hfind, hact, hexp, hlt, -⟩ :=
      consume_ok_shape _ c t sp invites1 hok
    have hmem0 : i0 ∈ (applyOps initState ops).invites := List.get?_mem hget
    have hmemf : invite ∈ (applyOps initState ops).invites :=
      List.mem_of_find?_eq_some hfind
    have hcodef : invite.code = stripStr c := by
      have hp := List.find?_some hfind
      exact of_decide_eq_true hp
    refine ⟨consumeInviteRow (stripStr c) i0, ?_, ?_, ?_⟩
    · rw [heq, List.get?_map, hget]
      rfl
    · intro hne
      exact consumeInviteRow_of_ne (stripStr c) i0 hne
    · intro hceq
      have h0i : i0 = invite := by
        refine List.inj_on_of_nodup_map hnd hmem0 hmemf ?_
        rw [hceq, hcodef]
      refine ⟨?_, ?_, ?_, ?_⟩
      · rw [h0i]
        exact hlt
      · unfold consumeInviteRow
        rw [if_pos hceq]
      · unfold consumeInviteRow
        rw [if_pos hceq]
      · unfold consumeInviteRow
        rw [if_pos hceq]
        dsimp only []
        by_cases h2 : i0.max_uses ≤ i0.uses + 1
        · rw [if_pos h2]
          exact ⟨fun _ => h2, fun _ => rfl⟩
        · rw [if_neg h2]
          constructor
          · intro hfalse
            rw [h0i, hact] at hfalse
            exact Bool.noConfusion hfalse
          · intro hle
            exact absurd hle h2

/-- Witness for C6: a bootstrap account creates a one-use invite which
one registration consumes; the follow-up consumption attempt on the
exhausted code fails and a registration through it changes nothing. -/
theorem C6_witness :
    (∃ msg, consumeInviteCode (applyOps initState
      [Op.createBootstrap "bot" "b" "pw" 1 0, Op.createInvite 1 1 none "inv" 0,
       Op.registerPassword "al" "a" "pw" "inv" 2 0]).invites "inv" 5 =
      .error (.invalidInviteCode msg)) ∧
    ∀ u e ph nid, applyOp (applyOps initState
      [Op.createBootstrap "bot" "b" "pw" 1 0, Op.createInvite 1 1 none "inv" 0,
       Op.registerPassword "al" "a" "pw" "inv" 2 0]) (Op.registerPassword u e ph "inv" nid 5) =
      applyOps initState
      [Op.createBootstrap "bot" "b" "pw" 1 0, Op.createInvite 1 1 none "inv" 0,
       Op.registerPassword "al" "a" "pw" "inv" 2 0] :=
  (C6_invite_cap
    [Op.createBootstrap "bot" "b" "pw" 1 0, Op.createInvite 1 1 none "inv" 0,
     Op.registerPassword "al" "a" "pw" "inv" 2 0] "inv" 5).2.1
    { code := "inv", sponsor_id := 1, max_uses := 1, uses := 1, expires_at := none,
      is_active := false, created_at := 0 } (by rfl) (by decide)

/-- Counterexample to C3: from the empty ledger, a bootstrap account
creates an invite expiring in one day (max_uses = 5 ≥ 1); at hour 48
the row's expires_at = 24 is in the past, yet is_active is still true —
no operation ever flips is_active on expiry. -/
theorem C3_counterexample :
    ∃ i ∈ (applyOps initState
      [Op.createBootstrap "bot" "b" "pw" 1 0,
       Op.createInvite 1 5 (some 1) "inv" 0]).invites,
      i.expires_at = some 24 ∧ 24 < 48 ∧ i.is_active = true ∧
      inviteExpired i 48 = true := by decide

/-- Claim C3 (amended): after any operation sequence from the empty
ledger in which every created invite has max_uses ≥ 1, an invite whose
uses has reached max_uses is never active; expiry, by contrast, never
flips is_active in the table, but every consumption attempt of an
expired code is rejected with InvalidInviteCodeError. -/
theorem C3_exhausted_inactive (ops : List Op) (c : String) (t : Nat)
    (hpos : ∀ op ∈ ops, opMaxUsesPos op) :
    (∀ i ∈ (applyOps initState ops).invites, i.max_uses ≤ i.uses → i.is_active = false) ∧
    (∀ invite, (applyOps initState ops).invites.find?
        (fun i => decide (i.code = stripStr c)) = some invite →
      inviteExpired invite t = true →
      ∃ msg, consumeInviteCode (applyOps initState ops).invites c t =
        .error (.invalidInviteCode msg)) := by
  constructor
  · exact exhInactive_applyOps ops initState hpos
      (fun i hi => absurd hi (List.not_mem_nil i))
  · intro invite hfind hexp
    exact consume_expired _ c t invite hfind hexp

/-- Witness for C3 (amended) on the counterexample scenario: the
exhaustion invariant holds and consuming the expired code at hour 48
is rejected. -/
theorem C3_witness :
    (∀ i ∈ (applyOps initState [Op.createBootstrap "bot" "b" "pw" 1 0,
        Op.createInvite 1 5 (some 1) "inv" 0]).invites,
      i.max_uses ≤ i.uses → i.is_active = false) ∧
    (∃ msg, consumeInviteCode (applyOps initState [Op.createBootstrap "bot" "b" "pw" 1 0,
        Op.createInvite 1 5 (some 1) "inv" 0]).invites "inv" 48 =
      .error (.invalidInviteCode msg)) := by
  have h := C3_exhausted_inactive
    [Op.createBootstrap "bot" "b" "pw" 1 0, Op.createInvite 1 5 (some 1) "inv" 0] "inv" 48
    (by
      intro op hop
      rcases List.mem_cons.mp hop with h1 | hop2
      · rw [h1]
        exact True.intro
      rcases List.mem_cons.mp hop2 with h1 | hop3
      · rw [h1]
        show (1 : Nat) ≤ 5
        decide
      · exact absurd hop3 (List.not_mem_nil op))
  refine ⟨h.1, ?_⟩
  exact h.2 { code := "inv", sponsor_id := 1, max_uses := 5, uses := 0, expires_at := some 24, is_active := true, created_at := 0 } (by rfl) (by decide)

end Glupper
